import Mathlib

/-! ljp / mc-1: authenticated note-storage HTTP service.

A shallow embedding of `src/mc-1/main.go`.

* Go strings are byte sequences: `GoString` is a list of byte values.
* The PostgreSQL database is an explicit `Db` value (users, named_notes,
  the serial sequence) together with a log of the statements issued.
* Infrastructure failures of the database are inputs (`DbFaults`).
* `http.ResponseWriter` is an explicit record: the handler's header map, the
  committed status and header snapshot, and the body chunks written.

The library routines the program calls (`strings.SplitN`, `strings.EqualFold`,
`strings.TrimSpace`, `strings.TrimPrefix`, `url.PathUnescape`, `http.Error`,
`http.NotFound`, `json.Encoder.Encode`) are modelled after the Go standard
library.
-/

namespace Ljp

/-! ## Go strings -/

/-- A Go string: a finite byte sequence (each entry a value below 256), not
necessarily valid UTF-8. -/
abbrev GoString := List Nat

/-- The bytes of an ASCII literal. -/
def ascii (s : String) : GoString := s.toList.map Char.toNat

/-- Constant `utf8.RuneSelf`. -/
def runeSelf : Nat := 128

/-- Constant `utf8.RuneError` (U+FFFD). -/
def runeError : Nat := 65533

/-- Continuation byte test: `locb <= b && b <= hicb`. -/
def isCont (b : Nat) : Bool := decide (128 ≤ b ∧ b ≤ 191)

/-- Go `utf8.DecodeRuneInString`: the first rune of `s` and its width in bytes.
Invalid or short encodings give `(RuneError, 1)`; the empty string gives
`(RuneError, 0)`. The masks `s0 & mask2` etc. are written as remainders. -/
def decodeRune (s : GoString) : Nat × Nat :=
  match s with
  | [] => (runeError, 0)
  | s0 :: rest =>
    if s0 < 128 then (s0, 1)
    else if s0 < 194 then (runeError, 1)
    else if s0 < 224 then
      -- two bytes, accept range 0x80..0xBF
      match rest with
      | s1 :: _ => if isCont s1 then (s0 % 32 * 64 + s1 % 64, 2) else (runeError, 1)
      | _ => (runeError, 1)
    else if s0 < 240 then
      -- three bytes; 0xE0 needs s1 >= 0xA0, 0xED needs s1 <= 0x9F
      let lo := if s0 = 224 then 160 else 128
      let hi := if s0 = 237 then 159 else 191
      match rest with
      | s1 :: s2 :: _ =>
        if s1 < lo ∨ hi < s1 then (runeError, 1)
        else if !isCont s2 then (runeError, 1)
        else (s0 % 16 * 4096 + s1 % 64 * 64 + s2 % 64, 3)
      | _ => (runeError, 1)
    else if s0 < 245 then
      -- four bytes; 0xF0 needs s1 >= 0x90, 0xF4 needs s1 <= 0x8F
      let lo := if s0 = 240 then 144 else 128
      let hi := if s0 = 244 then 143 else 191
      match rest with
      | s1 :: s2 :: s3 :: _ =>
        if s1 < lo ∨ hi < s1 then (runeError, 1)
        else if !isCont s2 then (runeError, 1)
        else if !isCont s3 then (runeError, 1)
        else (s0 % 8 * 262144 + s1 % 64 * 4096 + s2 % 64 * 64 + s3 % 64, 4)
      | _ => (runeError, 1)
    else (runeError, 1)

/-- Go `utf8.RuneStart`: `b & 0xC0 != 0x80`. -/
def runeStart (b : Nat) : Bool := decide (b / 64 % 4 ≠ 2)

/-- The backward scan of `utf8.DecodeLastRuneInString`:
`for start--; start >= lim; start-- { if RuneStart(s[start]) { break } }`,
entered with `start` already decremented. -/
def scanBack (s : GoString) (lim : Int) : Nat → Int → Int
  | 0, start => start
  | fuel + 1, start =>
    if start ≥ lim then
      if runeStart (s.getD start.toNat 0) then start
      else scanBack s lim fuel (start - 1)
    else start

/-- Go `utf8.DecodeLastRuneInString`: the last rune of `s` and its width. -/
def decodeLastRune (s : GoString) : Nat × Nat :=
  let e := s.length
  if e = 0 then (runeError, 0)
  else
    let r := s.getD (e - 1) 0
    if r < runeSelf then (r, 1)
    else
      let lim : Int := if (e : Int) - 4 < 0 then 0 else (e : Int) - 4
      let start0 := scanBack s lim 4 ((e : Int) - 2)
      let start := if start0 < 0 then 0 else start0.toNat
      let (r1, size) := decodeRune (s.drop start)
      if start + size ≠ e then (runeError, 1) else (r1, size)

/-- Go `unicode.IsSpace`: the White_Space property. -/
def isSpace (r : Nat) : Bool :=
  decide (r = 9 ∨ r = 10 ∨ r = 11 ∨ r = 12 ∨ r = 13 ∨ r = 32 ∨ r = 133 ∨ r = 160
    ∨ r = 5760 ∨ (8192 ≤ r ∧ r ≤ 8202) ∨ r = 8232 ∨ r = 8233 ∨ r = 8239
    ∨ r = 8287 ∨ r = 12288)

/-- Go `strings.TrimLeftFunc(s, unicode.IsSpace)`: drop leading runes while
they are white space (the fuel bounds the number of runes by the length). -/
def trimLeftSpace : Nat → GoString → GoString
  | 0, s => s
  | fuel + 1, s =>
    match s with
    | [] => []
    | _ :: _ =>
      let (r, size) := decodeRune s
      if isSpace r then trimLeftSpace fuel (s.drop size) else s

/-- The loop of `lastIndexFunc(s, unicode.IsSpace, false)`: the start index of
the last rune that is not white space, or none (Go returns -1). -/
def lastIndexNotSpace (s : GoString) : Nat → Nat → Option Nat
  | 0, _ => none
  | fuel + 1, i =>
    if i = 0 then none
    else
      let (r, size) := decodeLastRune (s.take i)
      if isSpace r then lastIndexNotSpace s fuel (i - size) else some (i - size)

/-- Go `strings.TrimRightFunc(s, unicode.IsSpace)`. -/
def trimRightSpace (s : GoString) : GoString :=
  match lastIndexNotSpace s s.length s.length with
  | none => []
  | some i =>
    if s.getD i 0 ≥ runeSelf then s.take (i + (decodeRune (s.drop i)).2)
    else s.take (i + 1)

/-- Go `strings.TrimSpace`: remove leading and trailing Unicode white space.
The ASCII fast path of the library computes the same slice as
`TrimFunc(s, unicode.IsSpace)`, which is what is written here. -/
def trimSpace (s : GoString) : GoString :=
  trimRightSpace (trimLeftSpace s.length s)

/-- Go `strings.IndexByte`: index of the first occurrence of `c`. -/
def indexByte : GoString → Nat → Option Nat
  | [], _ => none
  | b :: rest, c => if b = c then some 0 else (indexByte rest c).map (· + 1)

/-- Go `strings.SplitN(s, sep, n)` for a one-byte separator and `n ≥ 0`: at
most `n` pieces, the last one being the unsplit remainder. -/
def splitN (s : GoString) (sep : Nat) : Nat → List GoString
  | 0 => []
  | 1 => [s]
  | n + 2 =>
    match indexByte s sep with
    | none => [s]
    | some m => s.take m :: splitN (s.drop (m + 1)) sep (n + 1)

/-- Go `unicode.SimpleFold` on the orbits that meet ASCII, each given in full
(`K k U+212A` and `S s U+017F` have three members, the other letters two).
The table for the remaining runes is not reproduced: such a rune is taken as
its own orbit, so `equalFold` is exact whenever one argument is ASCII. -/
def simpleFold (r : Nat) : Nat :=
  if r = 75 then 107
  else if r = 107 then 8490
  else if r = 8490 then 75
  else if r = 83 then 115
  else if r = 115 then 383
  else if r = 383 then 83
  else if 65 ≤ r ∧ r ≤ 90 then r + 32
  else if 97 ≤ r ∧ r ≤ 122 then r - 32
  else r

/-- The loop `for r != sr && r < tr { r = unicode.SimpleFold(r) }`. -/
def foldUntil (sr tr : Nat) : Nat → Nat → Nat
  | 0, r => r
  | fuel + 1, r => if r ≠ sr ∧ r < tr then foldUntil sr tr fuel (simpleFold r) else r

/-- One iteration of the rune loop of `strings.EqualFold`: do the runes `sr`
and `tr` match under simple case folding. -/
def runeEqualFold (sr tr : Nat) : Bool :=
  if tr = sr then true
  else
    let lo := min sr tr
    let hi := max sr tr
    if hi < runeSelf then decide (65 ≤ lo ∧ lo ≤ 90 ∧ hi = lo + 32)
    else decide (foldUntil lo hi 4 (simpleFold lo) = hi)

/-- The `hasUnicode` part of `strings.EqualFold`: compare rune by rune. -/
def equalFoldUnicode : Nat → GoString → GoString → Bool
  | 0, s, t => decide (s = [] ∧ t = [])
  | fuel + 1, s, t =>
    match s with
    | [] => decide (t = [])
    | _ :: _ =>
      match t with
      | [] => false
      | _ :: _ =>
        let (sr, ws) := decodeRune s
        let (tr, wt) := decodeRune t
        runeEqualFold sr tr && equalFoldUnicode fuel (s.drop ws) (t.drop wt)

/-- Go `strings.EqualFold`: equality under Unicode simple case folding, with
the byte-wise ASCII fast path followed by the rune loop. -/
def equalFold : GoString → GoString → Bool
  | [], [] => true
  | [], _ :: _ => false
  | _ :: _, [] => false
  | sr :: s, tr :: t =>
    if sr ≥ runeSelf ∨ tr ≥ runeSelf then
      equalFoldUnicode (s.length + 1) (sr :: s) (tr :: t)
    else if tr = sr then equalFold s t
    else if 65 ≤ min sr tr ∧ min sr tr ≤ 90 ∧ max sr tr = min sr tr + 32 then equalFold s t
    else false

/-- Go `strings.TrimPrefix`. -/
def trimPrefix (s pre : GoString) : GoString :=
  if pre.isPrefixOf s then s.drop pre.length else s

/-- Helper `ishex` of package `net/url`. -/
def ishex (c : Nat) : Bool :=
  decide ((48 ≤ c ∧ c ≤ 57) ∨ (97 ≤ c ∧ c ≤ 102) ∨ (65 ≤ c ∧ c ≤ 70))

/-- Helper `unhex` of package `net/url`. -/
def unhex (c : Nat) : Nat :=
  if 48 ≤ c ∧ c ≤ 57 then c - 48
  else if 97 ≤ c ∧ c ≤ 102 then c - 97 + 10
  else if 65 ≤ c ∧ c ≤ 70 then c - 65 + 10
  else 0

/-- First pass of `url.unescape`: the offending escape (at most three bytes) when
some `%` is not followed by two hex digits. -/
def badEscape : GoString → Option GoString
  | [] => none
  | c :: rest =>
    if c = 37 then
      match rest with
      | a :: b :: rest2 => if ishex a && ishex b then badEscape rest2 else some [c, a, b]
      | _ => some (c :: rest)
    else badEscape rest

/-- Second pass of `url.unescape` in path-segment mode: replace each `%XX` by
the byte it denotes (a `+` stays a `+`). -/
def decodeEscapes : GoString → GoString
  | [] => []
  | c :: rest =>
    if c = 37 then
      match rest with
      | a :: b :: rest2 => (unhex a * 16 + unhex b) :: decodeEscapes rest2
      | _ => [c]
    else c :: decodeEscapes rest

/-- Go `url.PathUnescape`. -/
def pathUnescape (s : GoString) : Except GoString GoString :=
  match badEscape s with
  | some bad => .error bad
  | none => .ok (decodeEscapes s)

/-! ## parseToken and extractNoteName -/

/-- The literal `"Bearer"`. -/
def bearer : GoString := [66, 101, 97, 114, 101, 114]

/-- The literal `"/notes/"`. -/
def notesPrefix : GoString := [47, 110, 111, 116, 101, 115, 47]

/-- Source `parseToken`. -/
def parseToken (header : GoString) : GoString :=
  if header = [] then []
  else
    let parts := splitN header 32 2
    match parts with
    | [p0, p1] => if !equalFold p0 bearer then [] else trimSpace p1
    | _ => []

/-- The errors of `extractNoteName`: `errors.New("missing name")` or the
`url.EscapeError` of `PathUnescape`. -/
inductive NameError where
  | missingName
  | escape (bad : GoString)
  deriving DecidableEq, Repr

/-- Source `extractNoteName`. -/
def extractNoteName (path : GoString) : Except NameError GoString :=
  let trimmed := trimPrefix path notesPrefix
  if trimmed = [] ∨ trimmed = path then .error .missingName
  else
    match pathUnescape trimmed with
    | .error bad => .error (.escape bad)
    | .ok decoded => .ok decoded

/-! ## The database -/

/-- Source type `user`. -/
structure user where
  ID : Int
  Username : GoString
  deriving DecidableEq, Repr

/-- Source type `namedNote`; also a row of table `named_notes` (without the
`created_at` column, which the program never reads). -/
structure namedNote where
  ID : Int
  UserID : Int
  Name : GoString
  Content : GoString
  deriving DecidableEq, Repr

/-- Source type `notePayload`. -/
structure notePayload where
  Name : GoString
  Content : GoString
  deriving DecidableEq, Repr

/-- A row of the externally owned table `users`. -/
structure UserRow where
  id : Int
  username : GoString
  token : GoString
  deriving DecidableEq, Repr

/-- The SQL statements the program issues, with their parameters. -/
inductive DbCall where
  | selectUser (token : GoString)
  | selectNames (userId : Int)
  | insertNote (userId : Int) (name content : GoString)
  | selectNote (userId : Int) (name : GoString)
  | updateNote (userId : Int) (name content : GoString)
  | deleteNote (userId : Int) (name : GoString)
  deriving DecidableEq, Repr

/-- Is the statement one on table `named_notes`. -/
def DbCall.onNotes : DbCall → Bool
  | .selectUser _ => false
  | _ => true

/-- The database: the two tables, the next value of the serial sequence behind
`named_notes.id`, and the log of statements issued so far (oldest first). -/
structure Db where
  users : List UserRow
  named_notes : List namedNote
  seq : Int
  log : List DbCall
  deriving DecidableEq, Repr

/-- Infrastructure failures, given from outside: the user lookup fails, the
statement on `named_notes` fails (unreachable store, timeout of the 3 s
context, a parameter the server rejects), `rows.Scan` fails at a row index.
A failed statement has no effect on the tables. -/
structure DbFaults where
  userQuery : Bool
  noteQuery : Bool
  scanAt : Option Nat
  deriving DecidableEq, Repr

/-- No infrastructure failure. -/
def DbFaults.none : DbFaults := ⟨false, false, Option.none⟩

/-- The outcome of `QueryRow(...).Scan(...)` when it is an error:
`pgx.ErrNoRows` or anything else. -/
inductive QueryError where
  | noRows
  | other
  deriving DecidableEq, Repr

/-- Append a statement to the log. -/
def Db.logged (db : Db) (c : DbCall) : Db := { db with log := db.log ++ [c] }

/-- Does the row have the key `(user_id, name)`. -/
def namedNote.hasKey (r : namedNote) (uid : Int) (name : GoString) : Bool :=
  decide (r.UserID = uid ∧ r.Name = name)

/-- Statement `select id, username from users where token = $1` read by
`QueryRow`: the first matching row. -/
def Db.queryUser (f : DbFaults) (db : Db) (token : GoString) :
    Except QueryError UserRow × Db :=
  (if f.userQuery then .error .other
   else
    match db.users.find? (fun r => decide (r.token = token)) with
    | none => .error .noRows
    | some r => .ok r,
   db.logged (.selectUser token))

/-- Lexicographic byte order on names, the order of `order by name asc`
under the C collation. -/
def nameLe : GoString → GoString → Bool
  | [], _ => true
  | _ :: _, [] => false
  | a :: s, b :: t => if a < b then true else if b < a then false else nameLe s t

/-- Insert into a list sorted by `nameLe`. -/
def insertName (x : GoString) : List GoString → List GoString
  | [] => [x]
  | y :: ys => if nameLe x y then x :: y :: ys else y :: insertName x ys

/-- Sort names ascending. -/
def sortNames : List GoString → List GoString
  | [] => []
  | x :: xs => insertName x (sortNames xs)

/-- Statement `select name from named_notes where user_id = $1 order by name asc`:
the result rows, or an error. -/
def Db.queryNames (f : DbFaults) (db : Db) (uid : Int) :
    Except QueryError (List GoString) × Db :=
  (if f.noteQuery then .error .other
   else .ok (sortNames ((db.named_notes.filter (fun r => decide (r.UserID = uid))).map (·.Name))),
   db.logged (.selectNames uid))

/-- Statement `insert into named_notes (user_id, name, content) values ($1, $2, $3)
on conflict (user_id, name) do nothing`, issued with a `user_id` read from
`users`. The result is the number of rows affected. The default of the serial
column is computed before the conflict is detected, so the sequence advances
also when nothing is inserted. -/
def Db.execInsert (f : DbFaults) (db : Db) (uid : Int) (name content : GoString) :
    Except QueryError Nat × Db :=
  let db := db.logged (.insertNote uid name content)
  if f.noteQuery then (.error .other, db)
  else if db.named_notes.any (fun r => r.hasKey uid name) then
    (.ok 0, { db with seq := db.seq + 1 })
  else
    (.ok 1, { db with named_notes := db.named_notes ++ [⟨db.seq, uid, name, content⟩],
                      seq := db.seq + 1 })

/-- Statement `select id, user_id, name, content from named_notes
where user_id = $1 and name = $2` read by `QueryRow`. -/
def Db.queryNote (f : DbFaults) (db : Db) (uid : Int) (name : GoString) :
    Except QueryError namedNote × Db :=
  (if f.noteQuery then .error .other
   else
    match db.named_notes.find? (fun r => r.hasKey uid name) with
    | none => .error .noRows
    | some r => .ok r,
   db.logged (.selectNote uid name))

/-- Statement `update named_notes set content = $3 where user_id = $1 and name = $2`;
the result is `RowsAffected`. -/
def Db.execUpdate (f : DbFaults) (db : Db) (uid : Int) (name content : GoString) :
    Except QueryError Nat × Db :=
  let db := db.logged (.updateNote uid name content)
  if f.noteQuery then (.error .other, db)
  else
    (.ok (db.named_notes.countP (fun r => r.hasKey uid name)),
     { db with named_notes :=
        db.named_notes.map (fun r => if r.hasKey uid name then { r with Content := content } else r) })

/-- Statement `delete from named_notes where user_id = $1 and name = $2`;
the result is `RowsAffected`. -/
def Db.execDelete (f : DbFaults) (db : Db) (uid : Int) (name : GoString) :
    Except QueryError Nat × Db :=
  let db := db.logged (.deleteNote uid name)
  if f.noteQuery then (.error .other, db)
  else
    (.ok (db.named_notes.countP (fun r => r.hasKey uid name)),
     { db with named_notes := db.named_notes.filter (fun r => !r.hasKey uid name) })

/-! ## JSON values and the response writer -/

/-- A JSON number or string. -/
inductive JsonScalar where
  | num (n : Int)
  | str (s : GoString)
  deriving DecidableEq, Repr

/-- The JSON values the program encodes: `null`, an array of strings, an object
of scalars (fields in encoding order). Values stand for their text; the
escaping done by `encoding/json` is not modelled. -/
inductive Json where
  | null
  | strings (items : List GoString)
  | object (fields : List (String × JsonScalar))
  deriving DecidableEq, Repr

/-- A Go slice of strings: `none` is the nil slice. -/
abbrev GoSlice := Option (List GoString)

/-- Go `append(names, name)`. -/
def goAppend (names : GoSlice) (name : GoString) : GoSlice :=
  match names with
  | none => some [name]
  | some xs => some (xs ++ [name])

/-- Package `encoding/json` on a `[]string`: a nil slice encodes as `null`, any
other slice as an array. -/
def encodeNames : GoSlice → Json
  | none => .null
  | some xs => .strings xs

/-- Package `encoding/json` on a `user`. -/
def encodeUser (u : user) : Json :=
  .object [("id", .num u.ID), ("username", .str u.Username)]

/-- Package `encoding/json` on a `namedNote`; `UserID` is tagged `json:"-"`. -/
def encodeNote (n : namedNote) : Json :=
  .object [("id", .num n.ID), ("name", .str n.Name), ("content", .str n.Content)]

/-- Package `encoding/json` on `map[string]string{"status": s}`. -/
def encodeStatus (s : String) : Json :=
  .object [("status", .str (ascii s))]

/-- A piece of response body: a text line (`fmt.Fprintln`) or the encoding of a
JSON value (`Encoder.Encode`), each followed by a newline. -/
inductive Chunk where
  | line (s : String)
  | json (v : Json)
  deriving DecidableEq, Repr

/-- An `http.ResponseWriter`: the header map the handler edits, whether the
status line and header have been committed, the committed status and header
snapshot, and the body written. -/
structure ResponseWriter where
  header : List (String × String)
  wroteHeader : Bool
  status : Nat
  sent : List (String × String)
  body : List Chunk
  deriving DecidableEq, Repr

/-- A writer on which nothing has been done. -/
def ResponseWriter.fresh : ResponseWriter := ⟨[], false, 0, [], []⟩

/-- A writer on which nothing has been committed yet, holding the header map
`h` (the headers set by the middleware before the handler runs). -/
def startWriter (h : List (String × String)) : ResponseWriter := ⟨h, false, 0, [], []⟩

/-- Go `w.Header().Set(k, v)`. -/
def ResponseWriter.set (w : ResponseWriter) (k v : String) : ResponseWriter :=
  { w with header := (k, v) :: w.header.filter (fun p => p.1 != k) }

/-- Go `w.Header().Del(k)`. -/
def ResponseWriter.del (w : ResponseWriter) (k : String) : ResponseWriter :=
  { w with header := w.header.filter (fun p => p.1 != k) }

/-- Go `w.WriteHeader(code)`: commits the status and the header map as it is
now; later changes of the header map are not sent, and a second call is
ignored. -/
def ResponseWriter.writeHeader (w : ResponseWriter) (code : Nat) : ResponseWriter :=
  if w.wroteHeader then w
  else { w with wroteHeader := true, status := code, sent := w.header }

/-- Go `w.Write(...)`: the first write commits status 200 when `WriteHeader`
has not been called. -/
def ResponseWriter.write (w : ResponseWriter) (c : Chunk) : ResponseWriter :=
  let w := if w.wroteHeader then w else w.writeHeader 200
  { w with body := w.body ++ [c] }

/-- Go `json.NewEncoder(w).Encode(v)`. -/
def encode (w : ResponseWriter) (v : Json) : ResponseWriter := w.write (.json v)

/-- Go `http.Error(w, msg, code)`. -/
def httpError (w : ResponseWriter) (msg : String) (code : Nat) : ResponseWriter :=
  let w := w.del "Content-Length"
  let w := w.set "Content-Type" "text/plain; charset=utf-8"
  let w := w.set "X-Content-Type-Options" "nosniff"
  let w := w.writeHeader code
  w.write (.line msg)

/-- Go `http.NotFound(w, r)`. -/
def notFound (w : ResponseWriter) : ResponseWriter :=
  httpError w "404 page not found" 404

/-- The value of a header in the response as sent. -/
def ResponseWriter.sentGet (w : ResponseWriter) (k : String) : Option String :=
  w.sent.lookup k

/-! ## Requests and handlers -/

/-- The part of an `http.Request` the handlers read: `r.Method`, `r.URL.Path`,
`r.Header.Get("Authorization")`, and the result of
`json.NewDecoder(r.Body).Decode(&payload)` (`none` when `Decode` returns an
error). -/
structure Request where
  Method : String
  Path : GoString
  Authorization : GoString
  Body : Option notePayload
  deriving DecidableEq, Repr

/-- The errors of `authUser`: the two `errors.New` values for a rejected
credential and the sentinel for a failed lookup. -/
inductive AuthError where
  | missingOrInvalid
  | invalidToken
  | internal
  deriving DecidableEq, Repr

/-- Source `errAuthInternal`. -/
abbrev errAuthInternal : AuthError := .internal

/-- Go `err.Error()`. -/
def AuthError.Error : AuthError → String
  | .missingOrInvalid => "missing or invalid bearer token"
  | .invalidToken => "invalid token"
  | .internal => "internal error"

/-- Source `authUser`. -/
def authUser (f : DbFaults) (db : Db) (authHeader : GoString) : Except AuthError user × Db :=
  let token := parseToken authHeader
  if token = [] then (.error .missingOrInvalid, db)
  else
    let q := db.queryUser f token
    match q.1 with
    | .error .noRows => (.error .invalidToken, q.2)
    | .error .other => (.error errAuthInternal, q.2)
    | .ok row => (.ok ⟨row.id, row.username⟩, q.2)

/-- The loop `for rows.Next() { ... rows.Scan(&name) ... names = append(names, name) }`
of `listNotes`, from row index `i`: the slice built, or `none` when `Scan` fails. -/
def scanNames (scanAt : Option Nat) : List GoString → Nat → GoSlice → Option GoSlice
  | [], _, names => some names
  | name :: rest, i, names =>
    if scanAt = some i then none
    else scanNames scanAt rest (i + 1) (goAppend names name)

/-- Source `listNotes`. -/
def listNotes (f : DbFaults) (db : Db) (w : ResponseWriter) (u : user) : ResponseWriter × Db :=
  let q := db.queryNames f u.ID
  match q.1 with
  | .error _ => (httpError w "internal error" 500, q.2)
  | .ok rows =>
    -- var names []string
    match scanNames f.scanAt rows 0 none with
    | none => (httpError w "internal error" 500, q.2)
    | some names =>
      let w := w.set "Content-Type" "application/json"
      (encode w (encodeNames names), q.2)

/-- Source `createNote`. -/
def createNote (f : DbFaults) (db : Db) (w : ResponseWriter) (r : Request) (u : user) :
    ResponseWriter × Db :=
  match r.Body with
  | none => (httpError w "invalid json" 400, db)
  | some payload =>
    if trimSpace payload.Name = [] then (httpError w "name required" 400, db)
    else
      let q := db.execInsert f u.ID payload.Name payload.Content
      match q.1 with
      | .error _ => (httpError w "internal error" 500, q.2)
      | .ok _ =>
        let w := w.writeHeader 201
        let w := w.set "Content-Type" "application/json"
        (encode w (encodeStatus "created"), q.2)

/-- Source `getNote`. -/
def getNote (f : DbFaults) (db : Db) (w : ResponseWriter) (u : user) (name : GoString) :
    ResponseWriter × Db :=
  let q := db.queryNote f u.ID name
  match q.1 with
  | .error .noRows => (notFound w, q.2)
  | .error .other => (httpError w "internal error" 500, q.2)
  | .ok note =>
    let w := w.set "Content-Type" "application/json"
    (encode w (encodeNote note), q.2)

/-- Source `updateNote`. -/
def updateNote (f : DbFaults) (db : Db) (w : ResponseWriter) (r : Request) (u : user)
    (name : GoString) : ResponseWriter × Db :=
  match r.Body with
  | none => (httpError w "invalid json" 400, db)
  | some payload =>
    let ct := db.execUpdate f u.ID name payload.Content
    match ct.1 with
    | .error _ => (httpError w "internal error" 500, ct.2)
    | .ok rowsAffected =>
      if rowsAffected = 0 then (notFound w, ct.2)
      else
        let w := w.set "Content-Type" "application/json"
        (encode w (encodeStatus "updated"), ct.2)

/-- Source `deleteNote`. -/
def deleteNote (f : DbFaults) (db : Db) (w : ResponseWriter) (u : user) (name : GoString) :
    ResponseWriter × Db :=
  let ct := db.execDelete f u.ID name
  match ct.1 with
  | .error _ => (httpError w "internal error" 500, ct.2)
  | .ok rowsAffected =>
    if rowsAffected = 0 then (notFound w, ct.2)
    else
      let w := w.set "Content-Type" "application/json"
      (encode w (encodeStatus "deleted"), ct.2)

/-- Source `handleMe`. -/
def handleMe (f : DbFaults) (db : Db) (w : ResponseWriter) (r : Request) : ResponseWriter × Db :=
  if r.Method ≠ "GET" then
    let w := w.set "Allow" "GET"
    (httpError w "method not allowed" 405, db)
  else
    let a := authUser f db r.Authorization
    match a.1 with
    | .error err =>
      let status := if err = errAuthInternal then 500 else 401
      (httpError w err.Error status, a.2)
    | .ok u =>
      let w := w.set "Content-Type" "application/json"
      (encode w (encodeUser u), a.2)

/-- Source `handleNotes`. -/
def handleNotes (f : DbFaults) (db : Db) (w : ResponseWriter) (r : Request) : ResponseWriter × Db :=
  let a := authUser f db r.Authorization
  match a.1 with
  | .error err =>
    let status := if err = errAuthInternal then 500 else 401
    (httpError w err.Error status, a.2)
  | .ok u =>
    if r.Method = "GET" then listNotes f a.2 w u
    else if r.Method = "POST" then createNote f a.2 w r u
    else
      let w := w.set "Allow" "GET, POST"
      (httpError w "method not allowed" 405, a.2)

/-- Source `handleNoteByName`. -/
def handleNoteByName (f : DbFaults) (db : Db) (w : ResponseWriter) (r : Request) :
    ResponseWriter × Db :=
  let a := authUser f db r.Authorization
  match a.1 with
  | .error err =>
    let status := if err = errAuthInternal then 500 else 401
    (httpError w err.Error status, a.2)
  | .ok u =>
    match extractNoteName r.Path with
    | .error _ => (httpError w "invalid note name" 400, a.2)
    | .ok name =>
      if r.Method = "GET" then getNote f a.2 w u name
      else if r.Method = "PUT" then updateNote f a.2 w r u name
      else if r.Method = "DELETE" then deleteNote f a.2 w u name
      else
        let w := w.set "Allow" "GET, PUT, DELETE"
        (httpError w "method not allowed" 405, a.2)

/-- The type of a handler: faults, database, writer and request to the writer
and database afterwards. -/
abbrev Handler := DbFaults → Db → ResponseWriter → Request → ResponseWriter × Db

/-- Source `loggingMiddleware`: the log line does not touch the response. -/
def loggingMiddleware (next : Handler) : Handler :=
  fun f db w r => next f db w r

/-- Source `corsMiddleware`. -/
def corsMiddleware (next : Handler) : Handler :=
  fun f db w r =>
    let w := w.set "Access-Control-Allow-Origin" "*"
    let w := w.set "Access-Control-Allow-Headers" "Authorization, Content-Type"
    let w := w.set "Access-Control-Allow-Methods" "GET, POST, PUT, DELETE, OPTIONS"
    if r.Method = "OPTIONS" then (w.writeHeader 204, db)
    else next f db w r

/-- The three handlers registered in `main`: `/me`, `/notes`, `/notes/`. -/
inductive Route where
  | me
  | notes
  | noteByName
  deriving DecidableEq, Repr

/-- The handler registered for a route. -/
def Route.handler : Route → Handler
  | .me => handleMe
  | .notes => handleNotes
  | .noteByName => handleNoteByName


/-! ## Specification-side notions -/

/-- The uniqueness invariant of `idx_named_notes_user_name`: no two rows share
the pair `(user_id, name)`. -/
def UniqueKeys (rows : List namedNote) : Prop :=
  (rows.map (fun r => (r.UserID, r.Name))).Nodup

instance (rows : List namedNote) : Decidable (UniqueKeys rows) :=
  inferInstanceAs (Decidable (List.Nodup _))

/-- How one request may change table `named_notes`: not at all, by one row
appended under a fresh key with a non-blank name, by replacing the content of
the rows with one key, or by removing the rows with one key. -/
inductive NotesStep (old new : List namedNote) : Prop where
  | same (h : new = old)
  | inserted (id uid : Int) (name content : GoString)
      (hnew : new = old ++ [⟨id, uid, name, content⟩])
      (hname : trimSpace name ≠ [])
      (hfree : ∀ x ∈ old, ¬ (x.UserID = uid ∧ x.Name = name))
  | updated (uid : Int) (name content : GoString)
      (hnew : new = old.map
        (fun r => if r.hasKey uid name then { r with Content := content } else r))
  | deleted (uid : Int) (name : GoString)
      (hnew : new = old.filter (fun r => !r.hasKey uid name))

/-- Serve a sequence of requests one after the other, each on its route with
its own faults and a new writer; the database afterwards. -/
def serveAll (db : Db) : List (Route × DbFaults × Request) → Db
  | [] => db
  | (route, f, r) :: rest => serveAll (route.handler f db ResponseWriter.fresh r).2 rest


/-- The digits `0123456789abcdef`. -/
def hexDigitsLower : GoString :=
  [48, 49, 50, 51, 52, 53, 54, 55, 56, 57, 97, 98, 99, 100, 101, 102]

/-- The digits `0123456789ABCDEF`. -/
def hexDigitsUpper : GoString :=
  [48, 49, 50, 51, 52, 53, 54, 55, 56, 57, 65, 66, 67, 68, 69, 70]

/-- Specification side: the value of a hexadecimal digit, its position among the
digits, in either case. -/
def specHexValue (c : Nat) : Option Nat :=
  if c ∈ hexDigitsLower then some (hexDigitsLower.indexOf c)
  else if c ∈ hexDigitsUpper then some (hexDigitsUpper.indexOf c)
  else none

/-- Specification side: `enc` is validly percent-encoded and `dec` is its
percent-decoding. Every `%` is followed by two hexadecimal digits and stands
for the byte they denote; every other byte stands for itself. -/
inductive SpecPercentDecodes : GoString → GoString → Prop where
  | done : SpecPercentDecodes [] []
  | plain (c : Nat) (enc dec : GoString) (hc : c ≠ 37)
      (hrest : SpecPercentDecodes enc dec) : SpecPercentDecodes (c :: enc) (c :: dec)
  | escape (a b x y : Nat) (enc dec : GoString)
      (ha : specHexValue a = some x) (hb : specHexValue b = some y)
      (hrest : SpecPercentDecodes enc dec) :
      SpecPercentDecodes (37 :: a :: b :: enc) ((16 * x + y) :: dec)


/-- Specification side: the lower-case form of an ASCII letter, any other byte
unchanged. -/
def asciiLower (b : Nat) : Nat := if 65 ≤ b ∧ b ≤ 90 then b + 32 else b

/-- Specification side: two strings are equal ignoring case. -/
def SpecEqIgnoreCase (s t : GoString) : Prop := s.map asciiLower = t.map asciiLower

instance (s t : GoString) : Decidable (SpecEqIgnoreCase s t) :=
  inferInstanceAs (Decidable (_ = _))

/-- An ASCII byte other than `K k S s`, the letters whose folding orbit leaves
ASCII. -/
def FoldSafe (b : Nat) : Prop := b < 128 ∧ b ≠ 75 ∧ b ≠ 107 ∧ b ≠ 83 ∧ b ≠ 115

/-! # Theorems -/

/-! ## Basic facts on the writer and the database operations -/

theorem httpError_status (h : List (String × String)) (msg : String) (code : Nat) :
    (httpError (startWriter h) msg code).status = code := by
  simp [httpError, startWriter, ResponseWriter.write, ResponseWriter.writeHeader,
    ResponseWriter.set, ResponseWriter.del]

theorem httpError_body (h : List (String × String)) (msg : String) (code : Nat) :
    (httpError (startWriter h) msg code).body = [.line msg] := by
  simp [httpError, startWriter, ResponseWriter.write, ResponseWriter.writeHeader,
    ResponseWriter.set, ResponseWriter.del]

theorem set_startWriter (h : List (String × String)) (k v : String) :
    (startWriter h).set k v = startWriter ((k, v) :: h.filter (fun p => p.1 != k)) := rfl

theorem authUser_snd (f : DbFaults) (db : Db) (h : GoString) :
    (authUser f db h).2 = if parseToken h = [] then db else db.logged (.selectUser (parseToken h)) := by
  unfold authUser
  simp only
  split_ifs
  · rfl
  · split <;> rfl

theorem authUser_named_notes (f : DbFaults) (db : Db) (h : GoString) :
    (authUser f db h).2.named_notes = db.named_notes := by
  rw [authUser_snd]; split_ifs <;> rfl

theorem authUser_users (f : DbFaults) (db : Db) (h : GoString) :
    (authUser f db h).2.users = db.users := by
  rw [authUser_snd]; split_ifs <;> rfl

theorem authUser_fst (f : DbFaults) (db : Db) (h : GoString) :
    (authUser f db h).1 =
      if parseToken h = [] then .error .missingOrInvalid
      else if f.userQuery then .error .internal
      else match db.users.find? (fun r => decide (r.token = parseToken h)) with
        | none => .error .invalidToken
        | some row => .ok ⟨row.id, row.username⟩ := by
  unfold authUser Db.queryUser
  simp only
  split_ifs
  · rfl
  · rfl
  · cases db.users.find? (fun r => decide (r.token = parseToken h)) <;> rfl

/-! ## Authentication failures (C3) and unsupported methods (C6) -/

theorem authUser_missing {f : DbFaults} {db : Db} {h : GoString} (ht : parseToken h = []) :
    (authUser f db h).1 = .error .missingOrInvalid := by
  rw [authUser_fst, if_pos ht]

theorem authUser_unknown {f : DbFaults} {db : Db} {h : GoString} (ht : parseToken h ≠ [])
    (hf : f.userQuery = false) (hno : ∀ row ∈ db.users, row.token ≠ parseToken h) :
    (authUser f db h).1 = .error .invalidToken := by
  have hfind : db.users.find? (fun r => decide (r.token = parseToken h)) = none := by
    rw [List.find?_eq_none]
    intro row hrow
    simpa using hno row hrow
  rw [authUser_fst, if_neg ht, hfind]
  simp [hf]

theorem authUser_internal {f : DbFaults} {db : Db} {h : GoString} (ht : parseToken h ≠ [])
    (hf : f.userQuery = true) :
    (authUser f db h).1 = .error .internal := by
  rw [authUser_fst, if_neg ht, if_pos hf]

theorem handler_auth_error (route : Route) (f : DbFaults) (db : Db) (h : List (String × String))
    (r : Request) (e : AuthError) (hroute : route = .me → r.Method = "GET")
    (he : (authUser f db r.Authorization).1 = .error e) :
    (route.handler f db (startWriter h) r).1.status = if e = .internal then 500 else 401 := by
  cases route
  · have hm := hroute rfl
    simp only [Route.handler, handleMe, hm, he]
    simp [httpError_status]
  · simp only [Route.handler, handleNotes, he]
    simp [httpError_status]
  · simp only [Route.handler, handleNoteByName, he]
    simp [httpError_status]

theorem handleMe_method (f : DbFaults) (db : Db) (h : List (String × String)) (r : Request)
    (hm : r.Method ≠ "GET") :
    handleMe f db (startWriter h) r
      = (httpError ((startWriter h).set "Allow" "GET") "method not allowed" 405, db) := by
  simp [handleMe, hm]

/-- Claim C3 as stated fails: a POST to `/me` without an Authorization header is
answered 405 by `handleMe`, not 401. -/
theorem auth_failure_status_counterexample :
    parseToken [] = [] ∧
    (handleMe DbFaults.none ⟨[], [], 1, []⟩ ResponseWriter.fresh
        ⟨"POST", ascii "/me", [], none⟩).1.status = 405 ∧
    (handleMe DbFaults.none ⟨[], [], 1, []⟩ ResponseWriter.fresh
        ⟨"POST", ascii "/me", [], none⟩).1.status ≠ 401 := by
  decide

/-- Claim C3, amended: `handleNotes` and `handleNoteByName` for every request, and
`handleMe` for every GET request, answer 401 when the Authorization header is
missing or invalid or the token matches no user, and 500 when the user lookup
fails for an infrastructure reason; `handleMe` answers any other method with
405 before it looks at the credentials. -/
theorem auth_failure_status (route : Route) (f : DbFaults) (db : Db)
    (h : List (String × String)) (r : Request) :
    ((route = .me → r.Method = "GET") →
      (parseToken r.Authorization = [] →
        (route.handler f db (startWriter h) r).1.status = 401)
      ∧ (parseToken r.Authorization ≠ [] → f.userQuery = false →
          (∀ row ∈ db.users, row.token ≠ parseToken r.Authorization) →
          (route.handler f db (startWriter h) r).1.status = 401)
      ∧ (parseToken r.Authorization ≠ [] → f.userQuery = true →
          (route.handler f db (startWriter h) r).1.status = 500))
    ∧ (r.Method ≠ "GET" → (handleMe f db (startWriter h) r).1.status = 405) := by
  refine ⟨fun hroute => ⟨fun ht => ?_, fun ht hf hno => ?_, fun ht hf => ?_⟩, fun hm => ?_⟩
  · rw [handler_auth_error route f db h r _ hroute (authUser_missing ht)]; simp
  · rw [handler_auth_error route f db h r _ hroute (authUser_unknown ht hf hno)]; simp
  · rw [handler_auth_error route f db h r _ hroute (authUser_internal ht hf)]; simp
  · rw [handleMe_method f db h r hm, set_startWriter, httpError_status]

theorem httpError_allow (h : List (String × String)) (v msg : String) (code : Nat) :
    (httpError ((startWriter h).set "Allow" v) msg code).sentGet "Allow" = some v := by
  simp [httpError, startWriter, ResponseWriter.write, ResponseWriter.writeHeader,
    ResponseWriter.set, ResponseWriter.del, ResponseWriter.sentGet, List.lookup, List.filter]

/-- Claim C6 as stated fails: a DELETE on `/notes` without credentials is answered
401 by `handleNotes` (no 405, no Allow header), since authentication comes
before the method dispatch. -/
theorem method_not_allowed_counterexample :
    (handleNotes DbFaults.none ⟨[], [], 1, []⟩ ResponseWriter.fresh
        ⟨"DELETE", ascii "/notes", [], none⟩).1.status = 401 ∧
    (handleNotes DbFaults.none ⟨[], [], 1, []⟩ ResponseWriter.fresh
        ⟨"DELETE", ascii "/notes", [], none⟩).1.sentGet "Allow" = none := by
  decide

/-- Claim C6, amended: a request whose method is not handled for its path is
answered 405 with an Allow header listing exactly the supported methods, on
`/me` always, on `/notes` when the request authenticates, and on
`/notes/<name>` when the request authenticates and the note name extracts. -/
theorem method_not_allowed (f : DbFaults) (db : Db) (h : List (String × String)) (r : Request) :
    (r.Method ≠ "GET" →
      (handleMe f db (startWriter h) r).1.status = 405
      ∧ (handleMe f db (startWriter h) r).1.sentGet "Allow" = some "GET")
    ∧ (∀ u, (authUser f db r.Authorization).1 = .ok u →
        r.Method ≠ "GET" → r.Method ≠ "POST" →
        (handleNotes f db (startWriter h) r).1.status = 405
        ∧ (handleNotes f db (startWriter h) r).1.sentGet "Allow" = some "GET, POST")
    ∧ (∀ u name, (authUser f db r.Authorization).1 = .ok u →
        extractNoteName r.Path = .ok name →
        r.Method ≠ "GET" → r.Method ≠ "PUT" → r.Method ≠ "DELETE" →
        (handleNoteByName f db (startWriter h) r).1.status = 405
        ∧ (handleNoteByName f db (startWriter h) r).1.sentGet "Allow"
            = some "GET, PUT, DELETE") := by
  refine ⟨fun hm => ?_, fun u hu h1 h2 => ?_, fun u name hu hn h1 h2 h3 => ?_⟩
  · rw [handleMe_method f db h r hm]
    exact ⟨by rw [set_startWriter, httpError_status], httpError_allow _ _ _ _⟩
  · simp only [handleNotes, hu, h1, h2, if_false]
    exact ⟨by rw [set_startWriter, httpError_status], httpError_allow _ _ _ _⟩
  · simp only [handleNoteByName, hu, hn, h1, h2, h3, if_false]
    exact ⟨by rw [set_startWriter, httpError_status], httpError_allow _ _ _ _⟩

/-- Witness of `method_not_allowed`: PATCH on each path, with a known token. -/
theorem method_not_allowed_witness :
    (handleMe DbFaults.none ⟨[⟨1, ascii "alice", ascii "ta"⟩], [], 1, []⟩ (startWriter [])
        ⟨"PATCH", ascii "/notes/n", ascii "Bearer ta", none⟩).1.status = 405
    ∧ (handleNotes DbFaults.none ⟨[⟨1, ascii "alice", ascii "ta"⟩], [], 1, []⟩ (startWriter [])
        ⟨"PATCH", ascii "/notes/n", ascii "Bearer ta", none⟩).1.sentGet "Allow" = some "GET, POST"
    ∧ (handleNoteByName DbFaults.none ⟨[⟨1, ascii "alice", ascii "ta"⟩], [], 1, []⟩ (startWriter [])
        ⟨"PATCH", ascii "/notes/n", ascii "Bearer ta", none⟩).1.sentGet "Allow"
          = some "GET, PUT, DELETE" :=
  have hthm := method_not_allowed DbFaults.none ⟨[⟨1, ascii "alice", ascii "ta"⟩], [], 1, []⟩ []
    ⟨"PATCH", ascii "/notes/n", ascii "Bearer ta", none⟩
  ⟨(hthm.1 (by decide)).1,
   (hthm.2.1 ⟨1, ascii "alice"⟩ rfl (by decide) (by decide)).2,
   (hthm.2.2 ⟨1, ascii "alice"⟩ (ascii "n") rfl rfl (by decide) (by decide)
      (by decide)).2⟩

/-- Witness of `auth_failure_status`: an unknown token on `/notes`. -/
theorem auth_failure_status_witness :
    (handleNotes DbFaults.none ⟨[⟨1, ascii "alice", ascii "ta"⟩], [], 1, []⟩ (startWriter [])
        ⟨"GET", ascii "/notes", ascii "Bearer zz", none⟩).1.status = 401
    ∧ (handleNoteByName ⟨true, false, none⟩ ⟨[⟨1, ascii "alice", ascii "ta"⟩], [], 1, []⟩
        (startWriter []) ⟨"GET", ascii "/notes/n", ascii "Bearer ta", none⟩).1.status = 500
    ∧ (handleMe DbFaults.none ⟨[⟨1, ascii "alice", ascii "ta"⟩], [], 1, []⟩ (startWriter [])
        ⟨"GET", ascii "/me", ascii "Basic ta", none⟩).1.status = 401 :=
  ⟨((auth_failure_status .notes DbFaults.none ⟨[⟨1, ascii "alice", ascii "ta"⟩], [], 1, []⟩ []
      ⟨"GET", ascii "/notes", ascii "Bearer zz", none⟩).1 (by decide)).2.1
      (by decide) (by decide) (by decide),
   ((auth_failure_status .noteByName ⟨true, false, none⟩
      ⟨[⟨1, ascii "alice", ascii "ta"⟩], [], 1, []⟩ []
      ⟨"GET", ascii "/notes/n", ascii "Bearer ta", none⟩).1 (by decide)).2.2
      (by decide) (by decide),
   ((auth_failure_status .me DbFaults.none ⟨[⟨1, ascii "alice", ascii "ta"⟩], [], 1, []⟩ []
      ⟨"GET", ascii "/me", ascii "Basic ta", none⟩).1 (by decide)).1 (by decide)⟩

/-! ## Create-or-ignore (C1), empty listing (C9), content type (C10) -/

theorem handleNotes_post {f : DbFaults} {db : Db} {w : ResponseWriter} {r : Request} {u : user}
    (hauth : (authUser f db r.Authorization).1 = .ok u) (hm : r.Method = "POST") :
    handleNotes f db w r = createNote f (authUser f db r.Authorization).2 w r u := by
  simp [handleNotes, hauth, hm]

theorem execInsert_conflict {f : DbFaults} {db : Db} {uid : Int} {name content : GoString}
    (hf : f.noteQuery = false)
    (hex : db.named_notes.any (fun r => r.hasKey uid name) = true) :
    db.execInsert f uid name content
      = (.ok 0, { db.logged (.insertNote uid name content) with
                  seq := (db.logged (.insertNote uid name content)).seq + 1 }) := by
  have hex2 : (db.logged (.insertNote uid name content)).named_notes.any
      (fun r => r.hasKey uid name) = true := hex
  unfold Db.execInsert
  simp only [hf, hex2, if_true]
  simp

theorem created_response (h : List (String × String)) :
    (encode (((startWriter h).writeHeader 201).set "Content-Type" "application/json")
      (encodeStatus "created")).status = 201
    ∧ (encode (((startWriter h).writeHeader 201).set "Content-Type" "application/json")
      (encodeStatus "created")).body = [.json (encodeStatus "created")] := by
  simp [encode, startWriter, ResponseWriter.write, ResponseWriter.writeHeader,
    ResponseWriter.set]

/-- Claim C1: when user `u` already owns a note named `n` (non-blank) with content
`c1`, a POST to `/notes` with body `(n, c2)` leaves table `named_notes` (and
`users`) as it was, so the note still has content `c1`, and the response is
201 with body `status: created`. -/
theorem create_existing_is_noop (f : DbFaults) (db : Db) (h : List (String × String))
    (r : Request) (u : user) (id : Int) (n c1 c2 : GoString)
    (hauth : (authUser f db r.Authorization).1 = .ok u)
    (hf : f.noteQuery = false)
    (hm : r.Method = "POST") (hb : r.Body = some ⟨n, c2⟩)
    (hn : trimSpace n ≠ [])
    (hrow : (⟨id, u.ID, n, c1⟩ : namedNote) ∈ db.named_notes) :
    (handleNotes f db (startWriter h) r).2.named_notes = db.named_notes
    ∧ (handleNotes f db (startWriter h) r).2.users = db.users
    ∧ (⟨id, u.ID, n, c1⟩ : namedNote) ∈ (handleNotes f db (startWriter h) r).2.named_notes
    ∧ (handleNotes f db (startWriter h) r).1.status = 201
    ∧ (handleNotes f db (startWriter h) r).1.body
        = [.json (.object [("status", .str (ascii "created"))])] := by
  have hex : (authUser f db r.Authorization).2.named_notes.any
      (fun x => x.hasKey u.ID n) = true := by
    rw [authUser_named_notes, List.any_eq_true]
    exact ⟨_, hrow, by simp [namedNote.hasKey]⟩
  have hout : handleNotes f db (startWriter h) r
      = (encode (((startWriter h).writeHeader 201).set "Content-Type" "application/json")
          (encodeStatus "created"),
         { (authUser f db r.Authorization).2.logged (.insertNote u.ID n c2) with
            seq := ((authUser f db r.Authorization).2.logged (.insertNote u.ID n c2)).seq + 1 }) := by
    simp [handleNotes, hauth, hm, createNote, hb, hn, execInsert_conflict hf hex]
  rw [hout]
  refine ⟨?_, ?_, ?_, (created_response h).1, (created_response h).2⟩
  · exact authUser_named_notes f db _
  · exact authUser_users f db _
  · show _ ∈ (authUser f db r.Authorization).2.named_notes
    rw [authUser_named_notes]; exact hrow

/-- Witness of `create_existing_is_noop`: alice owns note `n` and posts it again. -/
theorem create_existing_is_noop_witness :
    (handleNotes DbFaults.none
        ⟨[⟨1, ascii "alice", ascii "ta"⟩], [⟨7, 1, ascii "n", ascii "c1"⟩], 8, []⟩
        (startWriter []) ⟨"POST", ascii "/notes", ascii "Bearer ta",
          some ⟨ascii "n", ascii "c2"⟩⟩).2.named_notes = [⟨7, 1, ascii "n", ascii "c1"⟩]
    ∧ (handleNotes DbFaults.none
        ⟨[⟨1, ascii "alice", ascii "ta"⟩], [⟨7, 1, ascii "n", ascii "c1"⟩], 8, []⟩
        (startWriter []) ⟨"POST", ascii "/notes", ascii "Bearer ta",
          some ⟨ascii "n", ascii "c2"⟩⟩).1.status = 201 :=
  have hthm := create_existing_is_noop DbFaults.none
    ⟨[⟨1, ascii "alice", ascii "ta"⟩], [⟨7, 1, ascii "n", ascii "c1"⟩], 8, []⟩ []
    ⟨"POST", ascii "/notes", ascii "Bearer ta", some ⟨ascii "n", ascii "c2"⟩⟩
    ⟨1, ascii "alice"⟩ 7 (ascii "n") (ascii "c1") (ascii "c2")
    rfl rfl rfl rfl (by decide) (by decide)
  ⟨hthm.1, hthm.2.2.2.1⟩

/-- For every authenticated user who owns no note, GET `/notes` without an
infrastructure failure answers 200 with the JSON value `null`: the slice
`names` is still nil when it is encoded. -/
theorem listNotes_empty_null (f : DbFaults) (db : Db) (h : List (String × String))
    (r : Request) (u : user)
    (hauth : (authUser f db r.Authorization).1 = .ok u)
    (hf : f.noteQuery = false) (hm : r.Method = "GET")
    (hzero : ∀ x ∈ db.named_notes, x.UserID ≠ u.ID) :
    (handleNotes f db (startWriter h) r).1.status = 200
    ∧ (handleNotes f db (startWriter h) r).1.body = [.json .null] := by
  have hfil : (authUser f db r.Authorization).2.named_notes.filter
      (fun x => decide (x.UserID = u.ID)) = [] := by
    rw [authUser_named_notes, List.filter_eq_nil_iff]
    intro x hx
    simpa using hzero x hx
  simp only [handleNotes, hauth, hm, if_true, listNotes, Db.queryNames, hf, hfil]
  simp [sortNames, scanNames, encodeNames, encode, startWriter, ResponseWriter.write,
    ResponseWriter.writeHeader, ResponseWriter.set]

/-- Claim C9 on the code: bob owns no note (alice owns one); his GET `/notes` is
answered 200 with body `null`, which is not the empty array. -/
theorem empty_listing_is_null :
    (handleNotes DbFaults.none
        ⟨[⟨1, ascii "alice", ascii "ta"⟩, ⟨2, ascii "bob", ascii "tb"⟩],
         [⟨7, 1, ascii "n", ascii "c1"⟩], 8, []⟩
        (startWriter []) ⟨"GET", ascii "/notes", ascii "Bearer tb", none⟩).1.status = 200
    ∧ (handleNotes DbFaults.none
        ⟨[⟨1, ascii "alice", ascii "ta"⟩, ⟨2, ascii "bob", ascii "tb"⟩],
         [⟨7, 1, ascii "n", ascii "c1"⟩], 8, []⟩
        (startWriter []) ⟨"GET", ascii "/notes", ascii "Bearer tb", none⟩).1.body
          = [.json .null]
    ∧ (handleNotes DbFaults.none
        ⟨[⟨1, ascii "alice", ascii "ta"⟩, ⟨2, ascii "bob", ascii "tb"⟩],
         [⟨7, 1, ascii "n", ascii "c1"⟩], 8, []⟩
        (startWriter []) ⟨"GET", ascii "/notes", ascii "Bearer tb", none⟩).1.body
          ≠ [.json (.strings [])] := by
  decide

/-- Every successful create, of a new note or of an existing one, commits
status 201 with the header map as it was before the handler ran: the
`Content-Type` set afterwards reaches the header map only. -/
theorem createNote_commits_before_content_type (f : DbFaults) (db : Db)
    (h : List (String × String)) (r : Request) (u : user) (p : notePayload)
    (hauth : (authUser f db r.Authorization).1 = .ok u) (hf : f.noteQuery = false)
    (hm : r.Method = "POST") (hb : r.Body = some p) (hn : trimSpace p.Name ≠ []) :
    (handleNotes f db (startWriter h) r).1.status = 201
    ∧ (handleNotes f db (startWriter h) r).1.sent = h
    ∧ (handleNotes f db (startWriter h) r).1.header.lookup "Content-Type"
        = some "application/json" := by
  have hout : (handleNotes f db (startWriter h) r).1
      = encode (((startWriter h).writeHeader 201).set "Content-Type" "application/json")
          (encodeStatus "created") := by
    rw [handleNotes_post hauth hm]
    simp only [createNote, hb, hn, if_false, Db.execInsert, hf, Bool.false_eq_true]
    split_ifs <;> rfl
  rw [hout]
  simp [encode, startWriter, ResponseWriter.write, ResponseWriter.writeHeader,
    ResponseWriter.set, List.lookup]

/-- Claim C10 on the code: behind the middleware of `main`, a successful POST
`/notes` commits status 201 before `Content-Type` is set, so the header sent
has no `Content-Type: application/json` although the header map holds it
afterwards; the PUT of the same user, which sets the header first, sends it. -/
theorem create_response_lacks_content_type :
    (corsMiddleware (loggingMiddleware handleNotes) DbFaults.none
        ⟨[⟨1, ascii "alice", ascii "ta"⟩], [], 1, []⟩ ResponseWriter.fresh
        ⟨"POST", ascii "/notes", ascii "Bearer ta",
          some ⟨ascii "n", ascii "c"⟩⟩).1.status = 201
    ∧ (corsMiddleware (loggingMiddleware handleNotes) DbFaults.none
        ⟨[⟨1, ascii "alice", ascii "ta"⟩], [], 1, []⟩ ResponseWriter.fresh
        ⟨"POST", ascii "/notes", ascii "Bearer ta",
          some ⟨ascii "n", ascii "c"⟩⟩).1.sentGet "Content-Type" = none
    ∧ (corsMiddleware (loggingMiddleware handleNotes) DbFaults.none
        ⟨[⟨1, ascii "alice", ascii "ta"⟩], [], 1, []⟩ ResponseWriter.fresh
        ⟨"POST", ascii "/notes", ascii "Bearer ta",
          some ⟨ascii "n", ascii "c"⟩⟩).1.header.lookup "Content-Type"
          = some "application/json"
    ∧ (corsMiddleware (loggingMiddleware handleNoteByName) DbFaults.none
        ⟨[⟨1, ascii "alice", ascii "ta"⟩], [⟨1, 1, ascii "n", ascii "c"⟩], 2, []⟩
        ResponseWriter.fresh
        ⟨"PUT", ascii "/notes/n", ascii "Bearer ta",
          some ⟨[], ascii "d"⟩⟩).1.sentGet "Content-Type" = some "application/json" := by
  decide

/-! ## Effect of a request on `named_notes` -/

theorem listNotes_notes (f : DbFaults) (db : Db) (w : ResponseWriter) (u : user) :
    (listNotes f db w u).2.named_notes = db.named_notes := by
  unfold listNotes
  simp only
  split
  · rfl
  · split <;> rfl

theorem getNote_notes (f : DbFaults) (db : Db) (w : ResponseWriter) (u : user) (n : GoString) :
    (getNote f db w u n).2.named_notes = db.named_notes := by
  unfold getNote
  simp only
  split <;> rfl

theorem createNote_step (f : DbFaults) (db : Db) (w : ResponseWriter) (r : Request) (u : user) :
    NotesStep db.named_notes (createNote f db w r u).2.named_notes := by
  unfold createNote
  split
  · exact .same rfl
  · rename_i payload _
    split_ifs with hblank
    · exact .same rfl
    · have hstep : NotesStep db.named_notes
          (db.execInsert f u.ID payload.Name payload.Content).2.named_notes := by
        unfold Db.execInsert
        simp only
        split_ifs with h1 h2
        · exact .same rfl
        · exact .same rfl
        · refine .inserted _ u.ID payload.Name payload.Content rfl hblank ?_
          intro x hx hkey
          apply h2
          rw [List.any_eq_true]
          exact ⟨x, hx, by simpa [namedNote.hasKey] using hkey⟩
      simp only
      split <;> exact hstep

theorem updateNote_step (f : DbFaults) (db : Db) (w : ResponseWriter) (r : Request) (u : user)
    (n : GoString) :
    NotesStep db.named_notes (updateNote f db w r u n).2.named_notes := by
  unfold updateNote
  split
  · exact .same rfl
  · rename_i payload _
    have hstep : NotesStep db.named_notes
        (db.execUpdate f u.ID n payload.Content).2.named_notes := by
      unfold Db.execUpdate
      simp only
      split_ifs
      · exact .same rfl
      · exact .updated u.ID n payload.Content rfl
    simp only
    split
    · exact hstep
    · split_ifs <;> exact hstep

theorem deleteNote_step (f : DbFaults) (db : Db) (w : ResponseWriter) (u : user)
    (n : GoString) :
    NotesStep db.named_notes (deleteNote f db w u n).2.named_notes := by
  unfold deleteNote
  have hstep : NotesStep db.named_notes (db.execDelete f u.ID n).2.named_notes := by
    unfold Db.execDelete
    simp only
    split_ifs
    · exact .same rfl
    · exact .deleted u.ID n rfl
  simp only
  split
  · exact hstep
  · split_ifs <;> exact hstep

theorem handler_step (route : Route) (f : DbFaults) (db : Db) (w : ResponseWriter)
    (r : Request) :
    NotesStep db.named_notes (route.handler f db w r).2.named_notes := by
  have ha := authUser_named_notes f db r.Authorization
  cases route
  · simp only [Route.handler, handleMe]
    split_ifs
    · exact .same rfl
    · split <;> exact .same ha
  · simp only [Route.handler, handleNotes]
    split
    · exact .same ha
    · split_ifs
      · exact .same (by rw [listNotes_notes, ha])
      · rw [← ha]; exact createNote_step _ _ _ _ _
      · exact .same ha
  · simp only [Route.handler, handleNoteByName]
    split
    · exact .same ha
    · split
      · exact .same ha
      · split_ifs
        · exact .same (by rw [getNote_notes, ha])
        · rw [← ha]; exact updateNote_step _ _ _ _ _ _
        · rw [← ha]; exact deleteNote_step _ _ _ _ _
        · exact .same ha

theorem handler_users (route : Route) (f : DbFaults) (db : Db) (w : ResponseWriter)
    (r : Request) :
    (route.handler f db w r).2.users = db.users := by
  have ha := authUser_users f db r.Authorization
  cases route
  · simp only [Route.handler, handleMe]
    split_ifs
    · rfl
    · split <;> exact ha
  · simp only [Route.handler, handleNotes]
    split
    · exact ha
    · split_ifs
      · rw [← ha]; unfold listNotes; simp only; split
        · rfl
        · split <;> rfl
      · rw [← ha]; unfold createNote; split
        · rfl
        · split_ifs
          · rfl
          · simp only [Db.execInsert]; split_ifs <;> (split <;> rfl)
      · exact ha
  · simp only [Route.handler, handleNoteByName]
    split
    · exact ha
    · split
      · exact ha
      · split_ifs
        · rw [← ha]; unfold getNote; simp only; split <;> rfl
        · rw [← ha]; unfold updateNote; split
          · rfl
          · simp only [Db.execUpdate]; split_ifs <;> (split <;> (try split_ifs) <;> rfl)
        · rw [← ha]; unfold deleteNote
          simp only [Db.execDelete]; split_ifs <;> (split <;> (try split_ifs) <;> rfl)
        · exact ha

theorem NotesStep.unique {old new : List namedNote} (hs : NotesStep old new)
    (hu : UniqueKeys old) : UniqueKeys new := by
  unfold UniqueKeys at *
  cases hs with
  | same h => rw [h]; exact hu
  | inserted id uid name content hnew hname hfree =>
    rw [hnew, List.map_append, List.nodup_append]
    refine ⟨hu, List.nodup_singleton _, ?_⟩
    intro k hk1 hk2
    simp only [List.map_cons, List.map_nil, List.mem_singleton] at hk2
    rw [List.mem_map] at hk1
    obtain ⟨x, hx, hxk⟩ := hk1
    apply hfree x hx
    rw [hk2] at hxk
    simpa using hxk
  | updated uid name content hnew =>
    have hmap : new.map (fun r => (r.UserID, r.Name)) = old.map (fun r => (r.UserID, r.Name)) := by
      rw [hnew, List.map_map]
      apply List.map_congr_left
      intro x _
      simp only [Function.comp]
      split_ifs <;> rfl
    rw [hmap]; exact hu
  | deleted uid name hnew =>
    rw [hnew]
    exact hu.sublist ((List.filter_sublist _).map _)

/-! ## Uniqueness invariant (C5) -/

theorem authUser_fst_congr (f : DbFaults) {db db2 : Db} (h : GoString)
    (hu : db2.users = db.users) :
    (authUser f db2 h).1 = (authUser f db h).1 := by
  rw [authUser_fst, authUser_fst, hu]

theorem authUser_seq (f : DbFaults) (db : Db) (h : GoString) :
    (authUser f db h).2.seq = db.seq := by
  rw [authUser_snd]; split_ifs <;> rfl

theorem handleNotes_create {f : DbFaults} {db : Db} {w : ResponseWriter} {r : Request}
    {u : user} {n c : GoString}
    (hauth : (authUser f db r.Authorization).1 = .ok u) (hf : f.noteQuery = false)
    (hm : r.Method = "POST") (hb : r.Body = some ⟨n, c⟩) (hn : trimSpace n ≠ []) :
    (handleNotes f db w r).2.named_notes =
      if db.named_notes.any (fun x => x.hasKey u.ID n) then db.named_notes
      else db.named_notes ++ [⟨db.seq, u.ID, n, c⟩] := by
  rw [handleNotes_post hauth hm]
  have h1 := authUser_named_notes f db r.Authorization
  have h2 := authUser_seq f db r.Authorization
  simp only [createNote, hb, hn, if_false, Db.execInsert, hf, Db.logged]
  simp only [Bool.false_eq_true, if_false, h1, h2]
  split_ifs <;> rfl

theorem countP_key_eq_one {rows : List namedNote} {uid : Int} {n : GoString}
    (hu : UniqueKeys rows) (hex : rows.any (fun x => x.hasKey uid n) = true) :
    rows.countP (fun x => x.hasKey uid n) = 1 := by
  induction rows with
  | nil => simp at hex
  | cons x xs ih =>
    unfold UniqueKeys at hu
    rw [List.map_cons, List.nodup_cons] at hu
    rw [List.countP_cons]
    by_cases hk : x.hasKey uid n = true
    · have h0 : xs.countP (fun y => y.hasKey uid n) = 0 := by
        rw [List.countP_eq_zero]
        intro y hy hyk
        apply hu.1
        rw [List.mem_map]
        refine ⟨y, hy, ?_⟩
        simp only [namedNote.hasKey, decide_eq_true_eq] at hk hyk
        rw [hk.1, hk.2, hyk.1, hyk.2]
      rw [h0, if_pos hk]
    · rw [if_neg hk]
      rw [List.any_cons] at hex
      simp only [hk, Bool.false_or] at hex
      simpa using ih hu.2 hex

theorem serveAll_creates (u : user) (n : GoString) (rs : List (DbFaults × Request)) :
    ∀ db0 db : Db, db.users = db0.users → UniqueKeys db.named_notes →
    (∀ p ∈ rs, p.1.noteQuery = false ∧ p.2.Method = "POST"
        ∧ (∃ c, p.2.Body = some ⟨n, c⟩)
        ∧ (authUser p.1 db0 p.2.Authorization).1 = .ok u) →
    trimSpace n ≠ [] →
    (rs = [] → db.named_notes.any (fun x => x.hasKey u.ID n) = true) →
    (serveAll db (rs.map (fun p => (Route.notes, p.1, p.2)))).named_notes.countP
      (fun x => x.hasKey u.ID n) = 1 := by
  induction rs with
  | nil =>
    intro db0 db _ hu _ _ hex
    exact countP_key_eq_one hu (hex rfl)
  | cons p rest ih =>
    intro db0 db husers hu hall hn _
    obtain ⟨hf, hm, ⟨c, hb⟩, hauth⟩ := hall p (List.mem_cons_self _ _)
    have hauth2 : (authUser p.1 db p.2.Authorization).1 = .ok u := by
      rw [authUser_fst_congr p.1 _ husers]; exact hauth
    simp only [List.map_cons, serveAll]
    apply ih db0
    · rw [← husers]; exact handler_users .notes _ _ _ _
    · exact (handler_step .notes _ _ _ _).unique hu
    · intro q hq; exact hall q (List.mem_cons_of_mem _ hq)
    · exact hn
    · intro _
      simp only [Route.handler]
      rw [handleNotes_create hauth2 hf hm hb hn]
      split_ifs with hany
      · exact hany
      · simp [namedNote.hasKey]

/-- Claim C5: if `named_notes` holds at most one row per `(user_id, name)`, it still
does after any request to any of the three handlers, whatever the faults; and
one or more creates in a row of the same non-blank name by the same user,
without a store failure, leave exactly one row with that key. -/
theorem unique_keys_preserved (route : Route) (f : DbFaults) (db : Db) (w : ResponseWriter)
    (r : Request) (hu : UniqueKeys db.named_notes) :
    UniqueKeys (route.handler f db w r).2.named_notes
    ∧ ∀ (u : user) (n : GoString) (rs : List (DbFaults × Request)),
        rs ≠ [] → trimSpace n ≠ [] →
        (∀ p ∈ rs, p.1.noteQuery = false ∧ p.2.Method = "POST"
          ∧ (∃ c, p.2.Body = some ⟨n, c⟩)
          ∧ (authUser p.1 db p.2.Authorization).1 = .ok u) →
        (serveAll db (rs.map (fun p => (Route.notes, p.1, p.2)))).named_notes.countP
          (fun x => x.hasKey u.ID n) = 1 :=
  ⟨(handler_step route f db w r).unique hu,
   fun u n rs hne hn hall =>
    serveAll_creates u n rs db db rfl hu hall hn (fun h => absurd h hne)⟩

/-- Witness of `unique_keys_preserved`: alice creates note `n` three times with
three contents on a store holding a note of bob. -/
theorem unique_keys_preserved_witness :
    UniqueKeys [(⟨7, 2, ascii "n", ascii "c1"⟩ : namedNote)]
    ∧ (serveAll ⟨[⟨1, ascii "alice", ascii "ta"⟩, ⟨2, ascii "bob", ascii "tb"⟩],
          [⟨7, 2, ascii "n", ascii "c1"⟩], 8, []⟩
        ([(DbFaults.none, (⟨"POST", ascii "/notes", ascii "Bearer ta",
              some ⟨ascii "n", ascii "x"⟩⟩ : Request)),
          (DbFaults.none, ⟨"POST", ascii "/notes", ascii "Bearer ta",
              some ⟨ascii "n", ascii "y"⟩⟩),
          (DbFaults.none, ⟨"POST", ascii "/notes", ascii "bearer ta",
              some ⟨ascii "n", ascii "z"⟩⟩)].map
          (fun p => (Route.notes, p.1, p.2)))).named_notes.countP
        (fun x => x.hasKey 1 (ascii "n")) = 1 :=
  ⟨by decide,
   (unique_keys_preserved .notes DbFaults.none
      ⟨[⟨1, ascii "alice", ascii "ta"⟩, ⟨2, ascii "bob", ascii "tb"⟩],
        [⟨7, 2, ascii "n", ascii "c1"⟩], 8, []⟩ ResponseWriter.fresh
      ⟨"GET", ascii "/notes", [], none⟩ (by decide)).2 ⟨1, ascii "alice"⟩ (ascii "n") _
      (by simp) (by decide)
      (by
        intro p hp
        simp only [List.mem_cons, List.mem_singleton, List.not_mem_nil, or_false] at hp
        rcases hp with rfl | rfl | rfl
        · exact ⟨rfl, rfl, ⟨_, rfl⟩, rfl⟩
        · exact ⟨rfl, rfl, ⟨_, rfl⟩, rfl⟩
        · exact ⟨rfl, rfl, ⟨_, rfl⟩, rfl⟩)⟩

/-! ## Name validation on create (C8) -/

theorem NotesStep.names {old new : List namedNote} (hs : NotesStep old new)
    (hold : ∀ y ∈ old, trimSpace y.Name ≠ []) : ∀ x ∈ new, trimSpace x.Name ≠ [] := by
  cases hs with
  | same h => rw [h]; exact hold
  | inserted id uid name content hnew hname hfree =>
    intro x hx
    rw [hnew, List.mem_append, List.mem_singleton] at hx
    rcases hx with hx | rfl
    · exact hold x hx
    · exact hname
  | updated uid name content hnew =>
    intro x hx
    rw [hnew, List.mem_map] at hx
    obtain ⟨y, hy, rfl⟩ := hx
    split_ifs
    · exact hold y hy
    · exact hold y hy
  | deleted uid name hnew =>
    intro x hx
    rw [hnew] at hx
    exact hold x (List.mem_of_mem_filter hx)

theorem created_status (w : ResponseWriter) (hw : w.wroteHeader = false) :
    (encode ((w.writeHeader 201).set "Content-Type" "application/json")
      (encodeStatus "created")).status = 201 := by
  simp [encode, ResponseWriter.write, ResponseWriter.writeHeader, ResponseWriter.set, hw]

/-- Claim C8: for an authenticated POST to `/notes` whose body decodes, the answer
is 400 exactly when the name is empty after trimming; a rejected request
issues no statement on `named_notes` and leaves the database as the user
lookup left it; every row of the table afterwards is an old row or the row
just inserted, which carries the name and content exactly as sent and a name
that is non-empty after trimming. Hence no request to any handler brings a
blank name into a table that had none. -/
theorem create_name_validation (f : DbFaults) (db : Db) (h : List (String × String))
    (r : Request) (u : user) (payload : notePayload)
    (hauth : (authUser f db r.Authorization).1 = .ok u)
    (hm : r.Method = "POST") (hb : r.Body = some payload) :
    ((handleNotes f db (startWriter h) r).1.status = 400 ↔ trimSpace payload.Name = [])
    ∧ (trimSpace payload.Name = [] →
        (handleNotes f db (startWriter h) r).2 = (authUser f db r.Authorization).2
        ∧ (handleNotes f db (startWriter h) r).2.named_notes = db.named_notes
        ∧ (handleNotes f db (startWriter h) r).2.log
            = db.log ++ [.selectUser (parseToken r.Authorization)])
    ∧ (∀ x ∈ (handleNotes f db (startWriter h) r).2.named_notes,
        x ∈ db.named_notes
        ∨ (x.UserID = u.ID ∧ x.Name = payload.Name ∧ x.Content = payload.Content
            ∧ trimSpace x.Name ≠ []))
    ∧ (∀ (route : Route) (f2 : DbFaults) (db2 : Db) (w2 : ResponseWriter) (r2 : Request),
        (∀ y ∈ db2.named_notes, trimSpace y.Name ≠ []) →
        ∀ x ∈ (route.handler f2 db2 w2 r2).2.named_notes, trimSpace x.Name ≠ []) := by
  have hnotes := authUser_named_notes f db r.Authorization
  have hlog : (authUser f db r.Authorization).2.log
      = db.log ++ [.selectUser (parseToken r.Authorization)] := by
    rw [authUser_snd]
    have hne : parseToken r.Authorization ≠ [] := by
      intro h0
      rw [authUser_missing h0] at hauth
      cases hauth
    rw [if_neg hne]; rfl
  rw [handleNotes_post hauth hm]
  refine ⟨?_, ?_, ?_, ?_⟩
  · by_cases hblank : trimSpace payload.Name = []
    · simp [createNote, hb, hblank, httpError_status]
    · simp only [createNote, hb, hblank, if_false, iff_false]
      split
      · rw [httpError_status]; decide
      · rw [created_status _ rfl]; decide
  · intro hblank
    have hout : createNote f (authUser f db r.Authorization).2 (startWriter h) r u
        = (httpError (startWriter h) "name required" 400, (authUser f db r.Authorization).2) := by
      simp only [createNote, hb, hblank, if_true]
    rw [hout]
    exact ⟨rfl, hnotes, hlog⟩
  · intro x hx
    by_cases hblank : trimSpace payload.Name = []
    · simp only [createNote, hb, hblank, if_true] at hx
      rw [hnotes] at hx
      exact Or.inl hx
    · have hx2 : x ∈ ((authUser f db r.Authorization).2.execInsert f u.ID payload.Name
          payload.Content).2.named_notes := by
        simp only [createNote, hb, hblank, if_false] at hx
        split at hx <;> exact hx
      simp only [Db.execInsert, Db.logged] at hx2
      split_ifs at hx2
      · rw [hnotes] at hx2; exact Or.inl hx2
      · rw [hnotes] at hx2; exact Or.inl hx2
      · simp only [hnotes, List.mem_append, List.mem_singleton] at hx2
        rcases hx2 with hx2 | rfl
        · exact Or.inl hx2
        · exact Or.inr ⟨rfl, rfl, rfl, hblank⟩
  · intro route f2 db2 w2 r2 hold
    exact (handler_step route f2 db2 w2 r2).names hold

/-- Witness of `create_name_validation`: alice posts a note whose name is only
white space. -/
theorem create_name_validation_witness :
    (handleNotes DbFaults.none ⟨[⟨1, ascii "alice", ascii "ta"⟩], [], 1, []⟩ (startWriter [])
        ⟨"POST", ascii "/notes", ascii "Bearer ta", some ⟨ascii " \t ", ascii "c"⟩⟩).1.status
      = 400 :=
  (create_name_validation DbFaults.none ⟨[⟨1, ascii "alice", ascii "ta"⟩], [], 1, []⟩ []
    ⟨"POST", ascii "/notes", ascii "Bearer ta", some ⟨ascii " \t ", ascii "c"⟩⟩
    ⟨1, ascii "alice"⟩ ⟨ascii " \t ", ascii "c"⟩ rfl rfl rfl).1.mpr (by decide)

/-! ## Owner-scoped not-found (C2) -/

theorem notFound_status (h : List (String × String)) :
    (notFound (startWriter h)).status = 404 := httpError_status h _ 404

theorem no_key_find {rows : List namedNote} {uid : Int} {n : GoString}
    (hno : ∀ x ∈ rows, ¬ (x.UserID = uid ∧ x.Name = n)) :
    rows.find? (fun x => x.hasKey uid n) = none := by
  rw [List.find?_eq_none]
  intro x hx
  simpa [namedNote.hasKey] using hno x hx

theorem no_key_count {rows : List namedNote} {uid : Int} {n : GoString}
    (hno : ∀ x ∈ rows, ¬ (x.UserID = uid ∧ x.Name = n)) :
    rows.countP (fun x => x.hasKey uid n) = 0 := by
  rw [List.countP_eq_zero]
  intro x hx
  simpa [namedNote.hasKey] using hno x hx

theorem no_key_map {rows : List namedNote} {uid : Int} {n c : GoString}
    (hno : ∀ x ∈ rows, ¬ (x.UserID = uid ∧ x.Name = n)) :
    rows.map (fun r => if r.hasKey uid n then { r with Content := c } else r) = rows := by
  conv_rhs => rw [← List.map_id rows]
  apply List.map_congr_left
  intro x hx
  have hk : ¬ x.hasKey uid n = true := by simpa [namedNote.hasKey] using hno x hx
  rw [if_neg hk]; rfl

theorem no_key_filter {rows : List namedNote} {uid : Int} {n : GoString}
    (hno : ∀ x ∈ rows, ¬ (x.UserID = uid ∧ x.Name = n)) :
    rows.filter (fun r => !r.hasKey uid n) = rows := by
  rw [List.filter_eq_self]
  intro x hx
  have hk : ¬ x.hasKey uid n = true := by simpa [namedNote.hasKey] using hno x hx
  simpa using hk

theorem queryNote_no_key {f : DbFaults} {db : Db} {uid : Int} {n : GoString}
    (hf : f.noteQuery = false)
    (hno : ∀ x ∈ db.named_notes, ¬ (x.UserID = uid ∧ x.Name = n)) :
    db.queryNote f uid n = (.error .noRows, db.logged (.selectNote uid n)) := by
  simp [Db.queryNote, hf, no_key_find hno]

theorem execUpdate_no_key {f : DbFaults} {db : Db} {uid : Int} {n c : GoString}
    (hf : f.noteQuery = false)
    (hno : ∀ x ∈ db.named_notes, ¬ (x.UserID = uid ∧ x.Name = n)) :
    db.execUpdate f uid n c = (.ok 0, db.logged (.updateNote uid n c)) := by
  have hno2 : ∀ x ∈ (db.logged (.updateNote uid n c)).named_notes,
      ¬ (x.UserID = uid ∧ x.Name = n) := hno
  simp only [Db.execUpdate, hf, Bool.false_eq_true, if_false, no_key_count hno2,
    no_key_map hno2]

theorem execDelete_no_key {f : DbFaults} {db : Db} {uid : Int} {n : GoString}
    (hf : f.noteQuery = false)
    (hno : ∀ x ∈ db.named_notes, ¬ (x.UserID = uid ∧ x.Name = n)) :
    db.execDelete f uid n = (.ok 0, db.logged (.deleteNote uid n)) := by
  have hno2 : ∀ x ∈ (db.logged (.deleteNote uid n)).named_notes,
      ¬ (x.UserID = uid ∧ x.Name = n) := hno
  simp only [Db.execDelete, hf, Bool.false_eq_true, if_false, no_key_count hno2,
    no_key_filter hno2]

theorem noteByName_not_owned (f : DbFaults) (db : Db) (w : ResponseWriter)
    (r : Request) (u : user) (n : GoString)
    (hauth : (authUser f db r.Authorization).1 = .ok u)
    (hf : f.noteQuery = false)
    (hname : extractNoteName r.Path = .ok n)
    (hno : ∀ x ∈ db.named_notes, ¬ (x.UserID = u.ID ∧ x.Name = n))
    (hmeth : r.Method = "GET" ∨ (r.Method = "PUT" ∧ r.Body ≠ none) ∨ r.Method = "DELETE") :
    (handleNoteByName f db w r).1 = notFound w
    ∧ (handleNoteByName f db w r).2.named_notes = db.named_notes := by
  have hnotes := authUser_named_notes f db r.Authorization
  have hno2 : ∀ x ∈ (authUser f db r.Authorization).2.named_notes,
      ¬ (x.UserID = u.ID ∧ x.Name = n) := by rw [hnotes]; exact hno
  rcases hmeth with hm | ⟨hm, hb⟩ | hm
  · have hout : handleNoteByName f db w r
        = (notFound w, (authUser f db r.Authorization).2.logged (.selectNote u.ID n)) := by
      simp [handleNoteByName, hauth, hname, hm, getNote, queryNote_no_key hf hno2]
    rw [hout]; exact ⟨rfl, hnotes⟩
  · obtain ⟨payload, hp⟩ := Option.ne_none_iff_exists'.mp hb
    have hout : handleNoteByName f db w r
        = (notFound w,
           (authUser f db r.Authorization).2.logged (.updateNote u.ID n payload.Content)) := by
      simp [handleNoteByName, hauth, hname, hm, updateNote, hp, execUpdate_no_key hf hno2]
    rw [hout]; exact ⟨rfl, hnotes⟩
  · have hout : handleNoteByName f db w r
        = (notFound w, (authUser f db r.Authorization).2.logged (.deleteNote u.ID n)) := by
      simp [handleNoteByName, hauth, hname, hm, deleteNote, execDelete_no_key hf hno2]
    rw [hout]; exact ⟨rfl, hnotes⟩

/-- Claim C2: when user B owns no note named `n` (other users may), GET, PUT with a
decodable body and DELETE on the path of `n`, authenticated as B and without a
store failure, are each answered 404 by `http.NotFound` and leave `named_notes`
and `users` as they were; the response is the one given when no user at all
owns a note named `n`. -/
theorem not_owned_is_not_found (f : DbFaults) (db : Db) (h : List (String × String))
    (r : Request) (u : user) (n : GoString)
    (hauth : (authUser f db r.Authorization).1 = .ok u)
    (hf : f.noteQuery = false)
    (hname : extractNoteName r.Path = .ok n)
    (hno : ∀ x ∈ db.named_notes, ¬ (x.UserID = u.ID ∧ x.Name = n))
    (hmeth : r.Method = "GET" ∨ (r.Method = "PUT" ∧ r.Body ≠ none) ∨ r.Method = "DELETE") :
    (handleNoteByName f db (startWriter h) r).1.status = 404
    ∧ (handleNoteByName f db (startWriter h) r).1.body = [.line "404 page not found"]
    ∧ (handleNoteByName f db (startWriter h) r).2.named_notes = db.named_notes
    ∧ (handleNoteByName f db (startWriter h) r).2.users = db.users
    ∧ (handleNoteByName f db (startWriter h) r).1
        = (handleNoteByName f
            { db with named_notes := db.named_notes.filter (fun x => decide (x.Name ≠ n)) }
            (startWriter h) r).1 := by
  obtain ⟨h1, h2⟩ := noteByName_not_owned f db (startWriter h) r u n hauth hf hname hno hmeth
  have hauth2 : (authUser f
      { db with named_notes := db.named_notes.filter (fun x => decide (x.Name ≠ n)) }
      r.Authorization).1 = .ok u := by
    rw [authUser_fst] at hauth ⊢
    exact hauth
  have h3 := noteByName_not_owned f
    { db with named_notes := db.named_notes.filter (fun x => decide (x.Name ≠ n)) }
    (startWriter h) r u n hauth2 hf hname
    (by
      intro x hx hk
      have := (List.mem_filter.mp hx).2
      simp [hk.2] at this) hmeth
  refine ⟨?_, ?_, h2, handler_users .noteByName f db _ r, ?_⟩
  · rw [h1]; exact notFound_status h
  · rw [h1]; exact httpError_body h _ _
  · rw [h1, h3.1]

/-- Witness of `not_owned_is_not_found`: bob asks for the note `n` that alice owns. -/
theorem not_owned_is_not_found_witness :
    (handleNoteByName DbFaults.none
        ⟨[⟨1, ascii "alice", ascii "ta"⟩, ⟨2, ascii "bob", ascii "tb"⟩],
         [⟨7, 1, ascii "n", ascii "c1"⟩], 8, []⟩ (startWriter [])
        ⟨"GET", ascii "/notes/n", ascii "Bearer tb", none⟩).1.status = 404
    ∧ (handleNoteByName DbFaults.none
        ⟨[⟨1, ascii "alice", ascii "ta"⟩, ⟨2, ascii "bob", ascii "tb"⟩],
         [⟨7, 1, ascii "n", ascii "c1"⟩], 8, []⟩ (startWriter [])
        ⟨"GET", ascii "/notes/n", ascii "Bearer tb", none⟩).2.named_notes
      = [⟨7, 1, ascii "n", ascii "c1"⟩] :=
  have hthm := not_owned_is_not_found DbFaults.none
    ⟨[⟨1, ascii "alice", ascii "ta"⟩, ⟨2, ascii "bob", ascii "tb"⟩],
      [⟨7, 1, ascii "n", ascii "c1"⟩], 8, []⟩ []
    ⟨"GET", ascii "/notes/n", ascii "Bearer tb", none⟩ ⟨2, ascii "bob"⟩ (ascii "n")
    rfl rfl rfl (by decide) (Or.inl rfl)
  ⟨hthm.1, hthm.2.2.1⟩

/-! ## Note-name extraction (C7) -/

theorem specHexValue_eq (c : Nat) :
    specHexValue c = if ishex c then some (unhex c) else none := by
  by_cases hc : c < 128
  · interval_cases c <;> rfl
  · have h1 : c ∉ hexDigitsLower := by
      intro hmem
      simp only [hexDigitsLower, List.mem_cons, List.mem_singleton, List.not_mem_nil,
        or_false] at hmem
      omega
    have h2 : c ∉ hexDigitsUpper := by
      intro hmem
      simp only [hexDigitsUpper, List.mem_cons, List.mem_singleton, List.not_mem_nil,
        or_false] at hmem
      omega
    have h3 : ishex c = false := by
      simp only [ishex, decide_eq_false_iff_not]
      omega
    simp [specHexValue, h1, h2, h3]

theorem specHexValue_some {c x : Nat} (h : specHexValue c = some x) :
    ishex c = true ∧ unhex c = x := by
  rw [specHexValue_eq] at h
  split_ifs at h with hh
  exact ⟨hh, by simpa using h⟩

theorem spec_decodes_unescape {enc dec : GoString} (h : SpecPercentDecodes enc dec) :
    pathUnescape enc = .ok dec := by
  have hboth : badEscape enc = none ∧ decodeEscapes enc = dec := by
    induction h with
    | done => exact ⟨rfl, rfl⟩
    | plain c enc dec hc _ ih =>
      unfold badEscape decodeEscapes
      simp only [if_neg hc]
      exact ⟨ih.1, by rw [ih.2]⟩
    | escape a b x y enc dec ha hb _ ih =>
      obtain ⟨ha1, ha2⟩ := specHexValue_some ha
      obtain ⟨hb1, hb2⟩ := specHexValue_some hb
      simp only [badEscape, decodeEscapes, if_true, ha1, hb1, Bool.and_self]
      refine ⟨ih.1, ?_⟩
      rw [ih.2, ha2, hb2, Nat.mul_comm]
  simp only [pathUnescape, hboth.1, hboth.2]

theorem unescape_spec_decodes : ∀ (n : Nat) (enc : GoString), enc.length ≤ n →
    badEscape enc = none → SpecPercentDecodes enc (decodeEscapes enc) := by
  intro n
  induction n with
  | zero =>
    intro enc hlen _
    have : enc = [] := List.length_eq_zero.mp (Nat.le_zero.mp hlen)
    subst this
    exact .done
  | succ n ih =>
    intro enc hlen hbad
    match enc, hlen, hbad with
    | [], _, _ => exact .done
    | c :: rest, hlen, hbad =>
      by_cases hc : c = 37
      · subst hc
        match rest, hlen, hbad with
        | [], _, hbad => simp [badEscape] at hbad
        | [a], _, hbad => simp [badEscape] at hbad
        | a :: b :: rest2, hlen, hbad =>
          simp only [badEscape, if_true] at hbad
          split_ifs at hbad with hhex
          simp only [Bool.and_eq_true] at hhex
          simp only [decodeEscapes, if_true]
          have ha : specHexValue a = some (unhex a) := by rw [specHexValue_eq, if_pos hhex.1]
          have hb : specHexValue b = some (unhex b) := by rw [specHexValue_eq, if_pos hhex.2]
          rw [Nat.mul_comm]
          refine .escape a b _ _ rest2 _ ha hb (ih rest2 ?_ hbad)
          simp only [List.length_cons] at hlen
          omega
      · unfold badEscape at hbad
        unfold decodeEscapes
        simp only [if_neg hc] at hbad ⊢
        refine .plain c rest _ hc (ih rest ?_ hbad)
        simp only [List.length_cons] at hlen
        omega

theorem pathUnescape_ok_iff (enc dec : GoString) :
    pathUnescape enc = .ok dec ↔ SpecPercentDecodes enc dec := by
  constructor
  · intro h
    unfold pathUnescape at h
    split at h
    · cases h
    · rename_i hbad
      injection h with h
      rw [← h]
      exact unescape_spec_decodes _ enc (le_refl _) hbad
  · exact spec_decodes_unescape

theorem spec_decodes_ne_nil {enc dec : GoString} (h : SpecPercentDecodes enc dec)
    (hne : enc ≠ []) : dec ≠ [] := by
  cases h with
  | done => exact absurd rfl hne
  | plain => exact List.cons_ne_nil _ _
  | escape => exact List.cons_ne_nil _ _

theorem trimPrefix_append (rem : GoString) :
    trimPrefix (notesPrefix ++ rem) notesPrefix = rem := by
  simp [trimPrefix, notesPrefix]

theorem trimPrefix_ne_self {path : GoString} (h : trimPrefix path notesPrefix ≠ path) :
    path = notesPrefix ++ trimPrefix path notesPrefix := by
  unfold trimPrefix at h ⊢
  split_ifs at h ⊢ with hp
  · rw [List.isPrefixOf_iff_prefix] at hp
    obtain ⟨t, ht⟩ := hp
    rw [← ht]
    simp
  · exact absurd rfl h

theorem extractNoteName_ok_iff (path name : GoString) :
    extractNoteName path = .ok name ↔
      ∃ rem, path = notesPrefix ++ rem ∧ rem ≠ [] ∧ SpecPercentDecodes rem name := by
  constructor
  · intro h
    unfold extractNoteName at h
    simp only at h
    split_ifs at h with hbad
    rw [not_or] at hbad
    refine ⟨trimPrefix path notesPrefix, trimPrefix_ne_self hbad.2, hbad.1, ?_⟩
    rw [← pathUnescape_ok_iff]
    split at h
    · cases h
    · rename_i hok
      injection h with h
      rw [hok, h]
  · rintro ⟨rem, rfl, hne, hdec⟩
    unfold extractNoteName
    simp only [trimPrefix_append]
    have hne2 : ¬ (rem = [] ∨ rem = notesPrefix ++ rem) := by
      rw [not_or]
      refine ⟨hne, fun h => ?_⟩
      have := congrArg List.length h
      simp only [notesPrefix, List.length_append, List.length_cons, List.length_nil] at this
      omega
    rw [if_neg hne2, spec_decodes_unescape hdec]

theorem authUser_ok_log {f : DbFaults} {db : Db} {h : GoString} {u : user}
    (hauth : (authUser f db h).1 = .ok u) :
    (authUser f db h).2.log = db.log ++ [.selectUser (parseToken h)] := by
  have hne : parseToken h ≠ [] := by
    intro h0
    rw [authUser_missing h0] at hauth
    cases hauth
  rw [authUser_snd, if_neg hne]; rfl

theorem getNote_log (f : DbFaults) (db : Db) (w : ResponseWriter) (u : user) (n : GoString) :
    (getNote f db w u n).2.log = db.log ++ [.selectNote u.ID n] := by
  unfold getNote
  simp only
  split <;> rfl

theorem updateNote_log (f : DbFaults) (db : Db) (w : ResponseWriter) (r : Request) (u : user)
    (n : GoString) (p : notePayload) (hb : r.Body = some p) :
    (updateNote f db w r u n).2.log = db.log ++ [.updateNote u.ID n p.Content] := by
  unfold updateNote
  simp only [hb, Db.execUpdate]
  split_ifs <;> (split <;> (try split_ifs) <;> rfl)

theorem deleteNote_log (f : DbFaults) (db : Db) (w : ResponseWriter) (u : user) (n : GoString) :
    (deleteNote f db w u n).2.log = db.log ++ [.deleteNote u.ID n] := by
  unfold deleteNote
  simp only [Db.execDelete]
  split_ifs <;> (split <;> (try split_ifs) <;> rfl)

/-- Claim C7: for an authenticated request to `handleNoteByName` with path `p`: if
`p` is not `/notes/` followed by a non-empty, validly percent-encoded
remainder, `extractNoteName` fails, the answer is 400 and no statement on
`named_notes` is issued (the log holds the user lookup only); otherwise the
extracted name is the percent-decoding of the remainder, it is non-empty, and
it is the name handed to `getNote`, `updateNote` and `deleteNote` and sent to
the database. -/
theorem note_name_extraction (f : DbFaults) (db : Db) (h : List (String × String))
    (r : Request) (u : user)
    (hauth : (authUser f db r.Authorization).1 = .ok u) :
    ((¬ ∃ rem d, r.Path = notesPrefix ++ rem ∧ rem ≠ [] ∧ SpecPercentDecodes rem d) →
      (∃ e, extractNoteName r.Path = .error e)
      ∧ (handleNoteByName f db (startWriter h) r).1.status = 400
      ∧ (handleNoteByName f db (startWriter h) r).2.log
          = db.log ++ [.selectUser (parseToken r.Authorization)]
      ∧ (handleNoteByName f db (startWriter h) r).2.named_notes = db.named_notes)
    ∧ (∀ rem d, r.Path = notesPrefix ++ rem → rem ≠ [] → SpecPercentDecodes rem d →
      extractNoteName r.Path = .ok d ∧ d ≠ []
      ∧ (r.Method = "GET" →
          handleNoteByName f db (startWriter h) r
            = getNote f (authUser f db r.Authorization).2 (startWriter h) u d
          ∧ (handleNoteByName f db (startWriter h) r).2.log
            = db.log ++ [.selectUser (parseToken r.Authorization), .selectNote u.ID d])
      ∧ (∀ p, r.Method = "PUT" → r.Body = some p →
          handleNoteByName f db (startWriter h) r
            = updateNote f (authUser f db r.Authorization).2 (startWriter h) r u d
          ∧ (handleNoteByName f db (startWriter h) r).2.log
            = db.log ++ [.selectUser (parseToken r.Authorization),
                .updateNote u.ID d p.Content])
      ∧ (r.Method = "DELETE" →
          handleNoteByName f db (startWriter h) r
            = deleteNote f (authUser f db r.Authorization).2 (startWriter h) u d
          ∧ (handleNoteByName f db (startWriter h) r).2.log
            = db.log ++ [.selectUser (parseToken r.Authorization), .deleteNote u.ID d])) := by
  have hlog := authUser_ok_log hauth
  constructor
  · intro hbad
    have herr : ∃ e, extractNoteName r.Path = .error e := by
      cases hx : extractNoteName r.Path with
      | error e => exact ⟨e, rfl⟩
      | ok name =>
        exfalso
        obtain ⟨rem, h1, h2, h3⟩ := (extractNoteName_ok_iff _ _).mp hx
        exact hbad ⟨rem, name, h1, h2, h3⟩
    obtain ⟨e, he⟩ := herr
    have hout : handleNoteByName f db (startWriter h) r
        = (httpError (startWriter h) "invalid note name" 400,
           (authUser f db r.Authorization).2) := by
      simp only [handleNoteByName, hauth, he]
    rw [hout]
    exact ⟨⟨e, he⟩, httpError_status _ _ _, hlog, authUser_named_notes _ _ _⟩
  · intro rem d hp hne hdec
    have hok : extractNoteName r.Path = .ok d :=
      (extractNoteName_ok_iff _ _).mpr ⟨rem, hp, hne, hdec⟩
    refine ⟨hok, spec_decodes_ne_nil hdec hne, ?_, ?_, ?_⟩
    · intro hm
      have hout : handleNoteByName f db (startWriter h) r
          = getNote f (authUser f db r.Authorization).2 (startWriter h) u d := by
        simp [handleNoteByName, hauth, hok, hm]
      refine ⟨hout, ?_⟩
      rw [hout, getNote_log, hlog]
      simp
    · intro p hm hb
      have hout : handleNoteByName f db (startWriter h) r
          = updateNote f (authUser f db r.Authorization).2 (startWriter h) r u d := by
        simp [handleNoteByName, hauth, hok, hm]
      refine ⟨hout, ?_⟩
      rw [hout, updateNote_log _ _ _ _ _ _ p hb, hlog]
      simp
    · intro hm
      have hout : handleNoteByName f db (startWriter h) r
          = deleteNote f (authUser f db r.Authorization).2 (startWriter h) u d := by
        simp [handleNoteByName, hauth, hok, hm]
      refine ⟨hout, ?_⟩
      rw [hout, deleteNote_log, hlog]
      simp

/-- Witness of `note_name_extraction`: the path `/notes/a%20b` names the note `a b`,
and the path `/notes/a%2` is answered 400. -/
theorem note_name_extraction_witness :
    extractNoteName (ascii "/notes/a%20b") = .ok (ascii "a b")
    ∧ (handleNoteByName DbFaults.none ⟨[⟨1, ascii "alice", ascii "ta"⟩], [], 1, []⟩
        (startWriter []) ⟨"GET", ascii "/notes/a%2", ascii "Bearer ta", none⟩).1.status = 400 :=
  ⟨((note_name_extraction DbFaults.none ⟨[⟨1, ascii "alice", ascii "ta"⟩], [], 1, []⟩ []
      ⟨"GET", ascii "/notes/a%20b", ascii "Bearer ta", none⟩ ⟨1, ascii "alice"⟩ rfl).2
      (ascii "a%20b") (ascii "a b") rfl (by decide)
      (.plain 97 _ _ (by decide)
        (.escape 50 48 2 0 _ _ rfl rfl (.plain 98 _ _ (by decide) .done)))).1,
   ((note_name_extraction DbFaults.none ⟨[⟨1, ascii "alice", ascii "ta"⟩], [], 1, []⟩ []
      ⟨"GET", ascii "/notes/a%2", ascii "Bearer ta", none⟩ ⟨1, ascii "alice"⟩ rfl).1
      (by
        rintro ⟨rem, d, hp, _, hdec⟩
        have hx := (extractNoteName_ok_iff (ascii "/notes/a%2") d).mpr ⟨rem, hp, ‹_›, hdec⟩
        have hy : extractNoteName (ascii "/notes/a%2")
            = .error (.escape (ascii "%2")) := rfl
        rw [hy] at hx
        cases hx)).2.1⟩

/-! ## parseToken (C4) -/

theorem decodeRune_ascii (b : Nat) (s : GoString) (hb : b < 128) :
    decodeRune (b :: s) = (b, 1) := by
  simp [decodeRune, hb]

theorem decodeRune_ge (b : Nat) (s : GoString) (hb : 128 ≤ b) :
    128 ≤ (decodeRune (b :: s)).1 := by
  unfold decodeRune
  simp only [isCont, runeError, Bool.not_eq_true', decide_eq_false_iff_not, decide_eq_true_eq]
  repeat' split
  all_goals dsimp only
  all_goals omega

theorem simpleFold_safe {r : Nat} (hr : FoldSafe r) : FoldSafe (simpleFold r) := by
  unfold FoldSafe at *
  unfold simpleFold
  split_ifs <;> omega

theorem foldUntil_safe (sr tr : Nat) : ∀ (fuel r : Nat), FoldSafe r →
    FoldSafe (foldUntil sr tr fuel r) := by
  intro fuel
  induction fuel with
  | zero => intro r hr; exact hr
  | succ n ih =>
    intro r hr
    unfold foldUntil
    split_ifs
    · exact ih _ (simpleFold_safe hr)
    · exact hr

theorem runeEqualFold_unicode {sr tr : Nat} (hs : 128 ≤ sr) (ht : FoldSafe tr) :
    runeEqualFold sr tr = false := by
  have hmin : min sr tr = tr := Nat.min_eq_right (by unfold FoldSafe at ht; omega)
  have hmax : max sr tr = sr := Nat.max_eq_left (by unfold FoldSafe at ht; omega)
  have hfold := foldUntil_safe tr sr 4 _ (simpleFold_safe ht)
  unfold runeEqualFold
  simp only [hmin, hmax, runeSelf]
  have h1 : ¬ tr = sr := by unfold FoldSafe at ht; omega
  have h2 : ¬ sr < 128 := by omega
  rw [if_neg h1, if_neg h2, decide_eq_false_iff_not]
  unfold FoldSafe at hfold
  omega

theorem asciiLower_eq_iff {sr tr : Nat} (hs : sr < 128) (ht : tr < 128) (hne : ¬ tr = sr) :
    (65 ≤ min sr tr ∧ min sr tr ≤ 90 ∧ max sr tr = min sr tr + 32)
      ↔ asciiLower sr = asciiLower tr := by
  unfold asciiLower
  rcases Nat.lt_or_ge sr tr with hlt | hge
  · rw [Nat.min_eq_left (Nat.le_of_lt hlt), Nat.max_eq_right (Nat.le_of_lt hlt)]
    split_ifs <;> omega
  · rw [Nat.min_eq_right hge, Nat.max_eq_left hge]
    split_ifs <;> omega

theorem equalFold_ascii : ∀ (s t : GoString), (∀ b ∈ t, FoldSafe b) →
    (equalFold s t = true ↔ SpecEqIgnoreCase s t) := by
  intro s
  induction s with
  | nil =>
    intro t _
    cases t with
    | nil => simp [equalFold, SpecEqIgnoreCase]
    | cons tr t => simp [equalFold, SpecEqIgnoreCase]
  | cons sr s ih =>
    intro t ht
    cases t with
    | nil => simp [equalFold, SpecEqIgnoreCase]
    | cons tr t =>
      have htr : FoldSafe tr := ht tr (List.mem_cons_self _ _)
      have htl : ∀ b ∈ t, FoldSafe b := fun b hb => ht b (List.mem_cons_of_mem _ hb)
      have htr128 : tr < 128 := htr.1
      have ih2 := ih t htl
      unfold SpecEqIgnoreCase at ih2 ⊢
      simp only [List.map_cons, List.cons.injEq]
      unfold equalFold
      simp only [runeSelf, ge_iff_le]
      by_cases hs : 128 ≤ sr
      · rw [if_pos (Or.inl hs)]
        have hfalse : equalFoldUnicode (s.length + 1) (sr :: s) (tr :: t) = false := by
          unfold equalFoldUnicode
          simp only [decodeRune_ascii tr t htr128]
          rw [runeEqualFold_unicode (decodeRune_ge sr s hs) htr]
          rfl
        rw [hfalse]
        have hne : asciiLower sr ≠ asciiLower tr := by
          unfold asciiLower
          split_ifs <;> omega
        simp [hne]
      · have hno : ¬ (128 ≤ sr ∨ 128 ≤ tr) := by omega
        rw [if_neg hno]
        by_cases heq : tr = sr
        · rw [if_pos heq, ih2, heq]
          simp
        · rw [if_neg heq]
          have hiff := asciiLower_eq_iff (Nat.lt_of_not_le hs) htr128 heq
          by_cases hcase : 65 ≤ min sr tr ∧ min sr tr ≤ 90 ∧ max sr tr = min sr tr + 32
          · rw [if_pos hcase, ih2]
            simp [hiff.mp hcase]
          · rw [if_neg hcase]
            have hne : ¬ asciiLower sr = asciiLower tr := fun h => hcase (hiff.mpr h)
            simp [hne]

theorem bearer_foldSafe : ∀ b ∈ bearer, FoldSafe b := by
  intro b hb
  simp only [bearer, List.mem_cons, List.mem_singleton, List.not_mem_nil, or_false] at hb
  unfold FoldSafe
  omega

theorem equalFold_bearer (s : GoString) :
    equalFold s bearer = true ↔ SpecEqIgnoreCase s bearer :=
  equalFold_ascii s bearer bearer_foldSafe

theorem indexByte_none {s : GoString} {c : Nat} (h : c ∉ s) : indexByte s c = none := by
  induction s with
  | nil => rfl
  | cons b rest ih =>
    have hb : ¬ b = c := fun hbc => h (hbc ▸ List.mem_cons_self _ _)
    have hrest : c ∉ rest := fun hm => h (List.mem_cons_of_mem _ hm)
    simp [indexByte, hb, ih hrest]

theorem indexByte_append {a : GoString} {c : Nat} (b : GoString) (h : c ∉ a) :
    indexByte (a ++ c :: b) c = some a.length := by
  induction a with
  | nil => simp [indexByte]
  | cons x rest ih =>
    have hx : ¬ x = c := fun hxc => h (hxc ▸ List.mem_cons_self _ _)
    have hrest : c ∉ rest := fun hm => h (List.mem_cons_of_mem _ hm)
    simp [indexByte, hx, ih hrest]

theorem parseToken_split (scheme rest : GoString) (h : 32 ∉ scheme) :
    parseToken (scheme ++ 32 :: rest)
      = if equalFold scheme bearer then trimSpace rest else [] := by
  have hne : scheme ++ 32 :: rest ≠ [] := by simp
  unfold parseToken
  rw [if_neg hne]
  simp only [splitN, indexByte_append rest h, List.take_left', List.drop_succ_cons]
  have hdrop : List.drop scheme.length (scheme ++ 32 :: rest) = 32 :: rest := by simp
  cases hfold : equalFold scheme bearer <;> simp [List.drop_append]

theorem parseToken_no_space (hdr : GoString) (h : 32 ∉ hdr) : parseToken hdr = [] := by
  unfold parseToken
  split_ifs
  · rfl
  · simp [splitN, indexByte_none h]

theorem split_at_space (hdr : GoString) (h : 32 ∈ hdr) :
    ∃ scheme rest, hdr = scheme ++ 32 :: rest ∧ 32 ∉ scheme := by
  induction hdr with
  | nil => cases h
  | cons b tl ih =>
    by_cases hb : b = 32
    · exact ⟨[], tl, by simp [hb], by simp⟩
    · have htl : 32 ∈ tl := by
        rcases List.mem_cons.mp h with h1 | h1
        · exact absurd h1.symm hb
        · exact h1
      obtain ⟨scheme, rest, h1, h2⟩ := ih htl
      refine ⟨b :: scheme, rest, by simp [h1], ?_⟩
      intro hm
      rcases List.mem_cons.mp hm with h3 | h3
      · exact hb h3.symm
      · exact h2 h3

/-- Claim C4: `parseToken` accepts exactly the headers `scheme ++ " " ++ rest` in which
`scheme` has no space and equals `Bearer` ignoring case and `rest` is non-empty
after trimming white space; it then returns `rest` trimmed. For every other
header it returns the empty string, and `authUser` fails with the
missing-or-invalid-token error leaving the database, its statement log
included, untouched: no lookup is made. -/
theorem parseToken_accepts_bearer (hdr : GoString) :
    (parseToken hdr ≠ [] ↔
      ∃ scheme rest, hdr = scheme ++ 32 :: rest ∧ 32 ∉ scheme
        ∧ SpecEqIgnoreCase scheme bearer ∧ trimSpace rest ≠ [])
    ∧ (∀ scheme rest, hdr = scheme ++ 32 :: rest → 32 ∉ scheme →
        SpecEqIgnoreCase scheme bearer → trimSpace rest ≠ [] →
        parseToken hdr = trimSpace rest)
    ∧ ((¬ ∃ scheme rest, hdr = scheme ++ 32 :: rest ∧ 32 ∉ scheme
          ∧ SpecEqIgnoreCase scheme bearer ∧ trimSpace rest ≠ []) →
        parseToken hdr = []
        ∧ ∀ (f : DbFaults) (db : Db), authUser f db hdr = (.error .missingOrInvalid, db)) := by
  have hiff : parseToken hdr ≠ [] ↔
      ∃ scheme rest, hdr = scheme ++ 32 :: rest ∧ 32 ∉ scheme
        ∧ SpecEqIgnoreCase scheme bearer ∧ trimSpace rest ≠ [] := by
    constructor
    · intro hne
      have hmem : 32 ∈ hdr := by
        by_contra hno
        exact hne (parseToken_no_space hdr hno)
      obtain ⟨scheme, rest, h1, h2⟩ := split_at_space hdr hmem
      refine ⟨scheme, rest, h1, h2, ?_⟩
      rw [h1, parseToken_split scheme rest h2] at hne
      split_ifs at hne with hfold
      · exact ⟨(equalFold_bearer scheme).mp hfold, hne⟩
      · exact absurd rfl hne
    · rintro ⟨scheme, rest, h1, h2, h3, h4⟩
      rw [h1, parseToken_split scheme rest h2, if_pos ((equalFold_bearer scheme).mpr h3)]
      exact h4
  refine ⟨hiff, ?_, ?_⟩
  · intro scheme rest h1 h2 h3 _
    rw [h1, parseToken_split scheme rest h2, if_pos ((equalFold_bearer scheme).mpr h3)]
  · intro hno
    have hempty : parseToken hdr = [] := by
      by_contra hne
      exact hno (hiff.mp hne)
    refine ⟨hempty, fun f db => ?_⟩
    simp [authUser, hempty]

/-- Witness of `parseToken_accepts_bearer`: the header `bEARER  tok ` gives `tok`. -/
theorem parseToken_accepts_bearer_witness :
    parseToken (ascii "bEARER  tok ") = ascii "tok"
    ∧ parseToken (ascii "Basic tok") = [] :=
  ⟨(parseToken_accepts_bearer (ascii "bEARER  tok ")).2.1 (ascii "bEARER") (ascii " tok ")
      rfl (by decide) (by decide) (by decide),
   ((parseToken_accepts_bearer (ascii "Basic tok")).2.2 (by
      rintro ⟨scheme, rest, h1, h2, h3, _⟩
      have hp := parseToken_split scheme rest h2
      rw [← h1, if_pos ((equalFold_bearer scheme).mpr h3)] at hp
      have hq : parseToken (ascii "Basic tok") = [] := rfl
      rw [hq] at hp
      exact ‹trimSpace rest ≠ []› hp.symm)).1⟩

end Ljp
